import Mathlib

/-!
Verification development for the `fixtures` package (a YAML fixture loader
for SQL databases).  The definitions below are a shallow embedding of the
package's two core files: the row compiler (`Row`, `Row.Init` and its
getters) and the load orchestrator (`LoadWithContext`, `Load`, `LoadFiles`,
`fixPostgresPKSequence`).

Modelling conventions:
* Go `interface{}` values are modelled by the inductive `GoValue`; the two
  marker pointer types `*PrimaryKeyGenerator` / `*PrimaryKeyReference` become
  the constructors `pkGen` / `pkRef` (a Go type assertion on the pointer type
  becomes a match on the constructor).
* Go maps (`map[string]interface{}`) are modelled as association lists whose
  keys are pairwise distinct; reading a missing key yields the zero value of
  `interface{}` (`nil`), modelled by `GoValue.vnull`.
* `time.Now()` is modelled by a counter threaded through the computation:
  the k-th call returns the opaque timestamp `GoValue.vtime k`.  Distinct
  calls yield distinct (and in particular not necessarily equal) captures.
* The database (`*sql.Tx`) is an oracle (`DbConn`) mapping each statement and
  argument list to a response; the orchestrator additionally records every
  round-trip it makes as a `SqlEvent` trace, together with the transaction
  begin/commit/rollback events.  Rolling back undoes all statements of the
  transaction, so "the database is left unchanged" is rendered as "the trace
  contains no commit and ends with a rollback".
* `log.Println` diagnostics (`DumpSQL`) have no observable effect on the
  database and are not modelled.
* YAML deserialization and file reading are external collaborators; entry
  points receive the already-deserialized `List Row` (resp. a list of them).
-/

/-- A Go `interface{}` value as it occurs in this package: `nil`, integers,
strings, `time.Time` captures, and the two marker pointer types. -/
inductive GoValue where
  | vnull : GoValue
  | vint (n : Int) : GoValue
  | vstr (s : String) : GoValue
  | vtime (t : Nat) : GoValue
  | pkGen (name : String) : GoValue
  | pkRef (name : String) : GoValue
deriving DecidableEq

/-- The Key Resolution Registry, Go's `map[string]interface{}` named
`primaryKeys` in the source.  Earlier entries shadow later ones, giving
map-overwrite semantics for `registrySet`. -/
abbrev Registry := List (String × GoValue)

/-- `PrimaryKeyReference.Get`: `return values[pk.name]`.  A missing key in a
Go map of `interface{}` yields `nil` (`GoValue.vnull`), not an error. -/
def registryGet (values : Registry) (name : String) : GoValue :=
  (values.lookup name).getD GoValue.vnull

/-- `PrimaryKeyGenerator.Set`: `values[pk.name] = key`. -/
def registrySet (values : Registry) (name : String) (key : GoValue) : Registry :=
  (name, key) :: values

/-- Byte-wise lexicographic comparison of character lists, as Go compares
strings (UTF-8 byte order coincides with code-point order). -/
def goLeChars : List Char → List Char → Bool
  | [], _ => true
  | _ :: _, [] => false
  | a :: as, b :: bs =>
    if a.toNat < b.toNat then true
    else if b.toNat < a.toNat then false
    else goLeChars as bs

/-- Go's `<=` on strings (lexicographic). -/
def goLeString (a b : String) : Bool :=
  goLeChars a.data b.data

/-- Insert a string into an already sorted list (helper for `goSortStrings`). -/
def goInsertStr (s : String) : List String → List String
  | [] => [s]
  | t :: ts => if goLeString s t then s :: t :: ts else t :: goInsertStr s ts

/-- `sort.Strings`: sorts a string slice in ascending lexicographic order
(insertion sort; the result is the unique `≤`-sorted permutation, so any
correct sorting algorithm is observationally identical). -/
def goSortStrings : List String → List String
  | [] => []
  | s :: ss => goInsertStr s (goSortStrings ss)

/-- `strings.HasPrefix`. -/
def goHasPre (s pre : String) : Bool :=
  pre.data.isPrefixOf s.data

/-- `strings.HasSuffix`. -/
def goHasSuf (s suf : String) : Bool :=
  suf.data.isSuffixOf s.data

/-- `strings.TrimPrefix`: drops `pre` when it is a prefix, else returns `s`. -/
def goTrimPre (s pre : String) : String :=
  if goHasPre s pre then String.mk (s.data.drop pre.data.length) else s

/-- `strings.TrimSuffix`: drops `suf` when it is a suffix, else returns `s`. -/
def goTrimSuf (s suf : String) : String :=
  if goHasSuf s suf then String.mk (s.data.take (s.data.length - suf.data.length)) else s

/-- `strings.TrimSpace`: removes leading and trailing whitespace. -/
def goTrimSpace (s : String) : String :=
  String.mk (((s.data.dropWhile Char.isWhitespace).reverse.dropWhile Char.isWhitespace).reverse)

/-- Go map read `m[k]` (zero value `nil` when the key is absent). -/
def goMapGet (m : List (String × GoValue)) (k : String) : GoValue :=
  (m.lookup k).getD GoValue.vnull

/-- A `for i, x := range xs` loop whose body uses the running index, with an
explicit starting offset. -/
def mapWithIdx (f : Nat → α → β) : Nat → List α → List β
  | _, [] => []
  | i, a :: as => f i a :: mapWithIdx f (i + 1) as

/-- `fmt.Sprintf("\"%s\"", c)`: identifier quoting. -/
def quoteIdent (c : String) : String :=
  "\"" ++ c ++ "\""

/-- Marker sentinels from the source's `const` block. -/
def onInsertNow : String := "ON_INSERT_NOW()"

/-- `onUpdateNow` sentinel. -/
def onUpdateNow : String := "ON_UPDATE_NOW()"

/-- `onPKGeneratePrefix` sentinel. -/
def pkGenerateMarkerPre : String := "PK_GENERATE("

/-- `onPKGenerateSuffix` sentinel. -/
def pkGenerateMarkerSuf : String := ")"

/-- `onPKReferencePrefix` sentinel. -/
def pkReferenceMarkerPre : String := "PK_REFERENCE("

/-- `onPKReferenceSuffix` sentinel. -/
def pkReferenceMarkerSuf : String := ")"

/-- The `postgresDriver` constant. -/
def postgresDriver : String := "postgres"

/-- The `Row` struct: the YAML-visible fields `Table`, `PK`, `Fields` and the
internal slices filled in by `Init`. -/
structure Row where
  Table : String
  PK : List (String × GoValue) := []
  Fields : List (String × GoValue) := []
  pkColumns : List String := []
  pkValues : List GoValue := []
  insertColumns : List String := []
  updateColumns : List String := []
  insertValues : List GoValue := []
  updateValues : List GoValue := []
deriving DecidableEq

/-- The body of `Init`'s primary-key loop for one key's stored value:
a string of the shape `PK_GENERATE(name)` becomes a `*PrimaryKeyGenerator`,
a string of shape `PK_REFERENCE(name)` a `*PrimaryKeyReference` (argument
whitespace-trimmed); everything else is passed through unchanged. -/
def classifyPKValue (v : GoValue) : GoValue :=
  match v with
  | GoValue.vstr sv =>
    if goHasPre sv pkGenerateMarkerPre && goHasSuf sv pkGenerateMarkerSuf then
      GoValue.pkGen (goTrimSpace (goTrimPre (goTrimSuf sv pkGenerateMarkerSuf) pkGenerateMarkerPre))
    else if goHasPre sv pkReferenceMarkerPre && goHasSuf sv pkReferenceMarkerSuf then
      GoValue.pkRef (goTrimSpace (goTrimPre (goTrimSuf sv pkReferenceMarkerSuf) pkReferenceMarkerPre))
    else v
  | _ => v

/-- Accumulator of `Init`'s field loop: the four slices being appended to,
plus the `time.Now()` capture counter. -/
structure FieldAcc where
  insertColumns : List String := []
  insertValues : List GoValue := []
  updateColumns : List String := []
  updateValues : List GoValue := []
  clock : Nat := 0
deriving DecidableEq

/-- `Init`'s field loop (`for _, fieldKey := range fieldKeys`), iterating the
sorted field keys.  `ON_INSERT_NOW()` appends a fresh timestamp to the insert
slices only; `ON_UPDATE_NOW()` appends a fresh timestamp to the update slices
and, when `SetUpdatedAtOnInsert` is set, a second, independently captured
timestamp to the insert slices; a `PK_REFERENCE(name)` string becomes a
`*PrimaryKeyReference` appended to both; anything else is appended to both
unchanged. -/
def processFieldKeys (flag : Bool) (fields : List (String × GoValue)) :
    List String → FieldAcc → FieldAcc
  | [], acc => acc
  | k :: ks, acc =>
    match goMapGet fields k with
    | GoValue.vstr sv =>
      if sv == onInsertNow then
        processFieldKeys flag fields ks
          { acc with
            insertColumns := acc.insertColumns ++ [k]
            insertValues := acc.insertValues ++ [GoValue.vtime acc.clock]
            clock := acc.clock + 1 }
      else if sv == onUpdateNow then
        if flag then
          processFieldKeys flag fields ks
            { acc with
              updateColumns := acc.updateColumns ++ [k]
              updateValues := acc.updateValues ++ [GoValue.vtime acc.clock]
              insertColumns := acc.insertColumns ++ [k]
              insertValues := acc.insertValues ++ [GoValue.vtime (acc.clock + 1)]
              clock := acc.clock + 2 }
        else
          processFieldKeys flag fields ks
            { acc with
              updateColumns := acc.updateColumns ++ [k]
              updateValues := acc.updateValues ++ [GoValue.vtime acc.clock]
              clock := acc.clock + 1 }
      else if goHasPre sv pkReferenceMarkerPre && goHasSuf sv pkReferenceMarkerSuf then
        let r := GoValue.pkRef
          (goTrimSpace (goTrimPre (goTrimSuf sv pkReferenceMarkerSuf) pkReferenceMarkerPre))
        processFieldKeys flag fields ks
          { acc with
            insertColumns := acc.insertColumns ++ [k]
            insertValues := acc.insertValues ++ [r]
            updateColumns := acc.updateColumns ++ [k]
            updateValues := acc.updateValues ++ [r] }
      else
        processFieldKeys flag fields ks
          { acc with
            insertColumns := acc.insertColumns ++ [k]
            insertValues := acc.insertValues ++ [GoValue.vstr sv]
            updateColumns := acc.updateColumns ++ [k]
            updateValues := acc.updateValues ++ [GoValue.vstr sv] }
    | v =>
      processFieldKeys flag fields ks
        { acc with
          insertColumns := acc.insertColumns ++ [k]
          insertValues := acc.insertValues ++ [v]
          updateColumns := acc.updateColumns ++ [k]
          updateValues := acc.updateValues ++ [v] }

/-- `Row.Init`: sorts the primary-key column names, classifies each stored
primary-key value, then runs the field loop over the sorted field keys.
Returns the initialized row and the advanced `time.Now()` counter.
`Init` is a total function: row compilation has no error path. -/
def Row.Init (row : Row) (setUpdatedAtOnInsert : Bool) (clock : Nat) : Row × Nat :=
  let pkColumns := goSortStrings (row.PK.map Prod.fst)
  let pkValues := pkColumns.map (fun k => classifyPKValue (goMapGet row.PK k))
  let fieldKeys := goSortStrings (row.Fields.map Prod.fst)
  let acc := processFieldKeys setUpdatedAtOnInsert row.Fields fieldKeys
    { insertColumns := [], insertValues := [], updateColumns := [], updateValues := [],
      clock := clock }
  ({ row with
      pkColumns := pkColumns
      pkValues := pkValues
      insertColumns := acc.insertColumns
      insertValues := acc.insertValues
      updateColumns := acc.updateColumns
      updateValues := acc.updateValues }, acc.clock)

/-- Resolution of one bound argument: only `*PrimaryKeyReference` values are
looked up in the registry; every other value (a raw `*PrimaryKeyGenerator`
marker included) is passed through unchanged. -/
def resolveValue (primaryKeys : Registry) (v : GoValue) : GoValue :=
  match v with
  | GoValue.pkRef name => registryGet primaryKeys name
  | _ => v

/-- `Row.GetInsertColumns`. -/
def Row.GetInsertColumns (row : Row) : List String :=
  row.insertColumns.map quoteIdent

/-- `Row.GetInsertValues`. -/
def Row.GetInsertValues (row : Row) (primaryKeys : Registry) : List GoValue :=
  row.insertValues.map (resolveValue primaryKeys)

/-- `Row.GetInsertPlaceholders`. -/
def Row.GetInsertPlaceholders (row : Row) (driver : String) : List String :=
  mapWithIdx
    (fun i _ => if driver == postgresDriver then "$" ++ toString (i + 1) else "?")
    0 row.insertValues

/-- `Row.GetPKAndInsertColumns`. -/
def Row.GetPKAndInsertColumns (row : Row) : List String :=
  row.pkColumns.map quoteIdent ++ row.insertColumns.map quoteIdent

/-- `Row.GetPKAndInsertValues`. -/
def Row.GetPKAndInsertValues (row : Row) (primaryKeys : Registry) : List GoValue :=
  (row.pkValues ++ row.insertValues).map (resolveValue primaryKeys)

/-- `Row.GetPKAndInsertPlaceholders`. -/
def Row.GetPKAndInsertPlaceholders (row : Row) (driver : String) : List String :=
  mapWithIdx
    (fun i _ => if driver == postgresDriver then "$" ++ toString (i + 1) else "?")
    0 (row.pkValues ++ row.insertValues)

/-- `Row.GetUpdateColumns`. -/
def Row.GetUpdateColumns (row : Row) : List String :=
  row.updateColumns.map quoteIdent

/-- `Row.GetUpdateColumnsLength`. -/
def Row.GetUpdateColumnsLength (row : Row) : Nat :=
  row.GetUpdateColumns.length

/-- `Row.GetUpdateValues`. -/
def Row.GetUpdateValues (row : Row) (primaryKeys : Registry) : List GoValue :=
  row.updateValues.map (resolveValue primaryKeys)

/-- `Row.GetUpdatePlaceholders`: SET-clause pieces `"col" = $i+1` (postgres)
or `"col" = ?` (otherwise), the positional count starting at 1. -/
def Row.GetUpdatePlaceholders (row : Row) (driver : String) : List String :=
  mapWithIdx
    (fun i c =>
      if driver == postgresDriver then c ++ " = $" ++ toString (i + 1) else c ++ " = ?")
    0 row.GetUpdateColumns

/-- `Row.GetWhere`: WHERE pieces over the (unquoted) primary-key columns,
the postgres positional count continuing from the offset `i` the caller
passes in.  The Go loop writes into a slice of length `len(row.PK)`; when
`pkColumns` is shorter the remaining entries stay `""` (and when it is
longer Go would panic — impossible for map-derived keys, `pkColumns` being
exactly the sorted key set of the `PK` map). -/
def Row.GetWhere (row : Row) (driver : String) (i : Nat) : String :=
  let items := mapWithIdx
    (fun j c =>
      if driver == postgresDriver then c ++ " = $" ++ toString (j + 1) else c ++ " = ?")
    i row.pkColumns
  let wheres := (items ++ List.replicate (row.PK.length - items.length) "").take row.PK.length
  String.intercalate " AND " wheres

/-- `Row.GetPKValues`. -/
def Row.GetPKValues (row : Row) (primaryKeys : Registry) : List GoValue :=
  row.pkValues.map (resolveValue primaryKeys)

/-- `Row.GetPKColumns`. -/
def Row.GetPKColumns (row : Row) : List String :=
  row.pkColumns

/-- One database round-trip or transaction-lifecycle action, as recorded in
the orchestrator's trace. -/
inductive SqlEvent where
  | query (stmt : String) (args : List GoValue) : SqlEvent
  | exec (stmt : String) (args : List GoValue) : SqlEvent
  | txBegin : SqlEvent
  | txCommit : SqlEvent
  | txRollback : SqlEvent
deriving DecidableEq

/-- Errors returned by the load entry points: `NewProcessingError` (1-based
row index plus cause) and `NewFileError`. -/
inductive LoadError where
  | processingError (row : Nat) (cause : String) : LoadError
  | fileError (filename : String) (cause : String) : LoadError
deriving DecidableEq

/-- The `sql.Result` of an `Exec` call; only `LastInsertId` is consumed. -/
structure SqlResult where
  lastInsertId : Except String Int
  
/-- The database collaborator: an oracle giving each round-trip's response.
`queryInt` models `QueryRow(...).Scan(&someInt)`, `queryNullStr` models
`QueryRow(...).Scan(&someStringPtr)` (nullable), `exec` models `Exec`. -/
structure DbConn where
  queryInt : String → List GoValue → Except String Int
  queryNullStr : String → List GoValue → Except String (Option String)
  exec : String → List GoValue → Except String SqlResult

/-- The literal statement text of `fixPostgresPKSequence`'s metadata query
(a Go raw string with its leading/trailing whitespace). -/
def pgSerialSequenceStmt : String :=
  "\n\t\tSELECT pg_get_serial_sequence($1, $2)\n\t"

/-- The literal statement text of `fixPostgresPKSequence`'s setval call. -/
def pgSetvalStmt (column table : String) : String :=
  "\n\t\tSELECT pg_catalog.setval($1, (SELECT MAX(\"" ++ column ++ "\") FROM \"" ++
    table ++ "\"))\n\t"

/-- `fixPostgresPKSequence`: look up the sequence backing `table.column`; if
none exists (`NULL` scan) return success without further statements; if one
exists, advance it to `MAX(column)` over the table. -/
def fixPostgresPKSequence (db : DbConn) (table column : String) :
    List SqlEvent × Except String Unit :=
  let qEv := SqlEvent.query pgSerialSequenceStmt [GoValue.vstr table, GoValue.vstr column]
  match db.queryNullStr pgSerialSequenceStmt [GoValue.vstr table, GoValue.vstr column] with
  | Except.error e => ([qEv], Except.error e)
  | Except.ok none => ([qEv], Except.ok ())
  | Except.ok (some seqName) =>
    let stmt := pgSetvalStmt column table
    match db.exec stmt [GoValue.vstr seqName] with
    | Except.error e => ([qEv, SqlEvent.exec stmt [GoValue.vstr seqName]], Except.error e)
    | Except.ok _ => ([qEv, SqlEvent.exec stmt [GoValue.vstr seqName]], Except.ok ())

/-- The generated-insert statement of the shortcut path:
`INSERT INTO "table"(field insert columns) VALUES(placeholders)`. -/
def generatedInsertStmt (row : Row) (driver : String) : String :=
  "INSERT INTO \"" ++ row.Table ++ "\"(" ++
    String.intercalate ", " row.GetInsertColumns ++ ") VALUES(" ++
    String.intercalate ", " (row.GetInsertPlaceholders driver) ++ ")"

/-- The existence-check statement:
`SELECT COUNT(*) FROM "table" WHERE pk conditions`. -/
def countStmt (row : Row) (driver : String) : String :=
  "SELECT COUNT(*) FROM \"" ++ row.Table ++ "\" WHERE " ++ row.GetWhere driver 0

/-- The plain-insert statement of the existence-check path:
`INSERT INTO "table"(pk columns ++ field insert columns) VALUES(...)`. -/
def pkInsertStmt (row : Row) (driver : String) : String :=
  "INSERT INTO \"" ++ row.Table ++ "\"(" ++
    String.intercalate ", " row.GetPKAndInsertColumns ++ ") VALUES(" ++
    String.intercalate ", " (row.GetPKAndInsertPlaceholders driver) ++ ")"

/-- The update statement:
`UPDATE "table" SET placeholders WHERE pk conditions`, the WHERE positional
count continuing from the SET clause's. -/
def updateStmt (row : Row) (driver : String) : String :=
  "UPDATE \"" ++ row.Table ++ "\" SET " ++
    String.intercalate ", " (row.GetUpdatePlaceholders driver) ++ " WHERE " ++
    row.GetWhere driver row.GetUpdateColumnsLength

/-- The tail shared by the insert and update branches: when the driver is
postgres and the first emitted column is literally `"id"`, run
`fixPostgresPKSequence` and append its round-trips to the trace. -/
def execTailFix (db : DbConn) (i : Nat) (prior : List SqlEvent) (table : String)
    (doFix : Bool) (primaryKeys : Registry) : List SqlEvent × Except LoadError Registry :=
  if doFix then
    let fix := fixPostgresPKSequence db table "id"
    match fix.2 with
    | Except.error e => (prior ++ fix.1, Except.error (LoadError.processingError (i + 1) e))
    | Except.ok _ => (prior ++ fix.1, Except.ok primaryKeys)
  else
    (prior, Except.ok primaryKeys)

/-- The Generated-Insert path of `LoadWithContext` (taken when the resolved
primary-key values are a single `*PrimaryKeyGenerator` carrying `name`):
INSERT over the field insert columns only, no existence check, the assigned
key read back via `RETURNING` (postgres) or `LastInsertId` (other drivers)
and recorded into the registry under `name`. -/
def processRowGen (driver : String) (db : DbConn) (primaryKeys : Registry) (i : Nat)
    (row : Row) (name : String) : List SqlEvent × Except LoadError Registry :=
  let args := row.GetInsertValues primaryKeys
  if driver == postgresDriver then
    let stmt := generatedInsertStmt row driver ++ " RETURNING " ++
      row.GetPKColumns.headD ""
    match db.queryInt stmt args with
    | Except.error e =>
      ([SqlEvent.query stmt args], Except.error (LoadError.processingError (i + 1) e))
    | Except.ok pk =>
      ([SqlEvent.query stmt args],
        Except.ok (registrySet primaryKeys name (GoValue.vint pk)))
  else
    let stmt := generatedInsertStmt row driver
    match db.exec stmt args with
    | Except.error e =>
      ([SqlEvent.exec stmt args], Except.error (LoadError.processingError (i + 1) e))
    | Except.ok res =>
      match res.lastInsertId with
      | Except.error e =>
        ([SqlEvent.exec stmt args], Except.error (LoadError.processingError (i + 1) e))
      | Except.ok pk =>
        ([SqlEvent.exec stmt args],
          Except.ok (registrySet primaryKeys name (GoValue.vint pk)))

/-- The existence-check path of `LoadWithContext`: `SELECT COUNT(*)`, then
INSERT (count = 0), UPDATE (count ≠ 0 and at least one update column) or
nothing (count ≠ 0 and no update columns). -/
def processRowStd (driver : String) (db : DbConn) (primaryKeys : Registry) (i : Nat)
    (row : Row) : List SqlEvent × Except LoadError Registry :=
  let selStmt := countStmt row driver
  let selArgs := row.GetPKValues primaryKeys
  let selEv := SqlEvent.query selStmt selArgs
  match db.queryInt selStmt selArgs with
  | Except.error e => ([selEv], Except.error (LoadError.processingError (i + 1) e))
  | Except.ok count =>
    if count == 0 then
      let stmt := pkInsertStmt row driver
      let args := row.GetPKAndInsertValues primaryKeys
      match db.exec stmt args with
      | Except.error e =>
        ([selEv, SqlEvent.exec stmt args],
          Except.error (LoadError.processingError (i + 1) e))
      | Except.ok _ =>
        execTailFix db i [selEv, SqlEvent.exec stmt args] row.Table
          (driver == postgresDriver && row.GetPKAndInsertColumns.headD "" == "\"id\"")
          primaryKeys
    else if row.GetUpdateColumnsLength > 0 then
      let stmt := updateStmt row driver
      let args := row.GetUpdateValues primaryKeys ++ row.GetPKValues primaryKeys
      match db.exec stmt args with
      | Except.error e =>
        ([selEv, SqlEvent.exec stmt args],
          Except.error (LoadError.processingError (i + 1) e))
      | Except.ok _ =>
        execTailFix db i [selEv, SqlEvent.exec stmt args] row.Table
          (driver == postgresDriver && row.GetUpdateColumns.headD "" == "\"id\"")
          primaryKeys
    else
      ([selEv], Except.ok primaryKeys)

/-- The body of `LoadWithContext`'s row loop for one (already initialized)
row, at 0-based position `i`.  Returns the trace of database round-trips and
either the updated registry or a processing error carrying the 1-based row
index.  The shortcut is taken exactly when the resolved primary-key values
are a single `*PrimaryKeyGenerator`. -/
def processRow (driver : String) (db : DbConn) (primaryKeys : Registry) (i : Nat)
    (row : Row) : List SqlEvent × Except LoadError Registry :=
  match row.GetPKValues primaryKeys with
  | [GoValue.pkGen name] => processRowGen driver db primaryKeys i row name
  | _ => processRowStd driver db primaryKeys i row

/-- `LoadWithContext`'s row loop over the (already deserialized) rows of one
document: each row is `Init`-ed against the running timestamp counter and
processed against the running registry; the first error aborts the loop. -/
def processRows (flag : Bool) (driver : String) (db : DbConn) :
    Registry → Nat → Nat → List Row → List SqlEvent × Except LoadError (Registry × Nat)
  | reg, clock, _, [] => ([], Except.ok (reg, clock))
  | reg, clock, i, row :: rest =>
    let ini := row.Init flag clock
    let step := processRow driver db reg i ini.1
    match step.2 with
    | Except.error e => (step.1, Except.error e)
    | Except.ok reg' =>
      let next := processRows flag driver db reg' ini.2 (i + 1) rest
      (step.1 ++ next.1, next.2)

/-- `Load`: begin a transaction, run the row loop with a fresh registry, and
commit on success.  The deferred `tx.Rollback()` takes effect only when the
function returns before `Commit` (rolling back after a completed commit is a
no-op in `database/sql`). -/
def Load (flag : Bool) (driver : String) (db : DbConn) (rows : List Row) :
    List SqlEvent × Except LoadError Unit :=
  let run := processRows flag driver db [] 0 0 rows
  match run.2 with
  | Except.error e =>
    (SqlEvent.txBegin :: run.1 ++ [SqlEvent.txRollback], Except.error e)
  | Except.ok _ =>
    (SqlEvent.txBegin :: run.1 ++ [SqlEvent.txCommit], Except.ok ())

/-- `LoadFile`: reads one file (an external collaborator, not modelled) and
then behaves exactly like `Load` on its rows. -/
def LoadFile (flag : Bool) (driver : String) (db : DbConn) (rows : List Row) :
    List SqlEvent × Except LoadError Unit :=
  Load flag driver db rows

/-- `LoadFiles`' file loop: each file's rows are processed by the row loop
with the row index restarting at 0 but the registry and timestamp counter
carried over from the previous file. -/
def loadFilesGo (flag : Bool) (driver : String) (db : DbConn) :
    Registry → Nat → List (List Row) → List SqlEvent × Except LoadError (Registry × Nat)
  | reg, clock, [] => ([], Except.ok (reg, clock))
  | reg, clock, rows :: rest =>
    let run := processRows flag driver db reg clock 0 rows
    match run.2 with
    | Except.error e => (run.1, Except.error e)
    | Except.ok s =>
      let next := loadFilesGo flag driver db s.1 s.2 rest
      (run.1 ++ next.1, next.2)

/-- `LoadFiles`: one transaction and one registry (`ctx.primaryKeys`) are
created for the whole batch; every file's rows run inside them; commit on
success, rollback on the first error. -/
def LoadFiles (flag : Bool) (driver : String) (db : DbConn) (files : List (List Row)) :
    List SqlEvent × Except LoadError Unit :=
  let run := loadFilesGo flag driver db [] 0 files
  match run.2 with
  | Except.error e =>
    (SqlEvent.txBegin :: run.1 ++ [SqlEvent.txRollback], Except.error e)
  | Except.ok _ =>
    (SqlEvent.txBegin :: run.1 ++ [SqlEvent.txCommit], Except.ok ())

/-! Concrete rows and database oracles used as evaluation witnesses. -/

/-- A row whose primary key references a name never generated. -/
def wRefRow : Row :=
  { Table := "users", PK := [("id", GoValue.vstr "PK_REFERENCE(user)")], Fields := [] }

/-- A row with a generated primary key and one literal field. -/
def wGenRow : Row :=
  { Table := "users", PK := [("id", GoValue.vstr "PK_GENERATE(uid)")],
    Fields := [("name", GoValue.vstr "Alice")] }

/-- A row with a literal primary key and two literal fields. -/
def wLitRow : Row :=
  { Table := "users", PK := [("id", GoValue.vint 5)],
    Fields := [("age", GoValue.vint 3), ("name", GoValue.vstr "A")] }

/-- A row with an explicit `id` primary key (sequence fix-up trigger). -/
def wIdRow : Row :=
  { Table := "users", PK := [("id", GoValue.vint 5)],
    Fields := [("name", GoValue.vstr "A")] }

/-- A row with both timestamp markers. -/
def wTsRow : Row :=
  { Table := "t", PK := [("id", GoValue.vint 1)],
    Fields := [("created_at", GoValue.vstr "ON_INSERT_NOW()"),
               ("updated_at", GoValue.vstr "ON_UPDATE_NOW()")] }

/-- A row with a composite primary key containing a generator marker. -/
def wMultiRow : Row :=
  { Table := "t", PK := [("id", GoValue.vstr "PK_GENERATE(g)"), ("org", GoValue.vint 2)],
    Fields := [] }

/-- First file of a cross-file batch: generates `user`. -/
def wFileGenRow : Row :=
  { Table := "users", PK := [("id", GoValue.vstr "PK_GENERATE(user)")],
    Fields := [("name", GoValue.vstr "Alice")] }

/-- Second file of a cross-file batch: references `user` from a field. -/
def wFileRefRow : Row :=
  { Table := "posts", PK := [("pid", GoValue.vint 1)],
    Fields := [("author_id", GoValue.vstr "PK_REFERENCE(user)")] }

/-- Oracle answering 0 to every scalar query. -/
def dbOk0 : DbConn :=
  { queryInt := fun _ _ => Except.ok 0
    queryNullStr := fun _ _ => Except.ok none
    exec := fun _ _ => Except.ok { lastInsertId := Except.ok 7 } }

/-- Oracle answering 1 to every scalar query. -/
def dbOk1 : DbConn :=
  { queryInt := fun _ _ => Except.ok 1
    queryNullStr := fun _ _ => Except.ok none
    exec := fun _ _ => Except.ok { lastInsertId := Except.ok 7 } }

/-- Oracle answering 0 to existence checks and 42 to any other scalar query
(such as an INSERT with RETURNING). -/
def dbSel : DbConn :=
  { queryInt := fun s _ => if goHasPre s "SELECT COUNT" then Except.ok 0 else Except.ok 42
    queryNullStr := fun _ _ => Except.ok none
    exec := fun _ _ => Except.ok { lastInsertId := Except.ok 7 } }

/-- Oracle reporting a backing sequence named `users_id_seq`. -/
def dbSeq : DbConn :=
  { queryInt := fun _ _ => Except.ok 0
    queryNullStr := fun _ _ => Except.ok (some "users_id_seq")
    exec := fun _ _ => Except.ok { lastInsertId := Except.ok 7 } }

/-- Oracle that fails every statement (for abort/rollback witnesses). -/
def dbFail : DbConn :=
  { queryInt := fun _ _ => Except.error "boom"
    queryNullStr := fun _ _ => Except.error "boom"
    exec := fun _ _ => Except.error "boom" }

/-- A row whose single primary-key column and single field both hold the same
plain literal string (for the literal pass-through witness). -/
def wC9Row : Row :=
  { Table := "t", PK := [("c", GoValue.vstr "zz")], Fields := [("c", GoValue.vstr "zz")] }

/-! Infrastructure lemmas: the Go string comparison agrees with Mathlib's
lexicographic order on `String`, so `goSortStrings` is `insertionSort`. -/

theorem char_lt_iff_toNat_lt (c d : Char) : c < d ↔ c.toNat < d.toNat := by
  rw [Char.lt_iff_val_lt_val, UInt32.lt_def, BitVec.lt_def]
  exact Iff.rfl

theorem goLeChars_iff (x y : List Char) :
    goLeChars x y = true ↔ (List.Lex (· < ·) x y ∨ x = y) := by
  induction x generalizing y with
  | nil =>
    cases y with
    | nil => simp [goLeChars]
    | cons b bs => simp [goLeChars, List.Lex.nil]
  | cons a as ih =>
    cases y with
    | nil =>
      simp only [goLeChars, List.cons_ne_nil, or_false]
      constructor
      · intro h
        exact absurd h (by simp)
      · intro h
        exact absurd h (List.Lex.not_nil_right _ _)
    | cons b bs =>
      by_cases hab : a.toNat < b.toNat
      · simp only [goLeChars, hab, if_pos, if_true]
        constructor
        · intro _
          exact Or.inl (List.Lex.rel ((char_lt_iff_toNat_lt a b).mpr hab))
        · intro _
          trivial
      · by_cases hba : b.toNat < a.toNat
        · have hnab : ¬ a < b := by
            rw [char_lt_iff_toNat_lt]
            exact hab
          have hnba : b < a := (char_lt_iff_toNat_lt b a).mpr hba
          simp only [goLeChars, hab, hba, if_neg, if_false, ite_true, ite_false]
          constructor
          · intro h
            cases h
          · intro h
            rcases h with h | h
            · cases h with
              | rel h => exact absurd h hnab
              | cons h => exact absurd rfl (ne_of_gt hnba)
            · cases h
              exact absurd hnba (lt_irrefl a)
        · have heq : a = b := by
            have h1 : ¬ a < b := by
              rw [char_lt_iff_toNat_lt]
              exact hab
            have h2 : ¬ b < a := by
              rw [char_lt_iff_toNat_lt]
              exact hba
            exact le_antisymm (le_of_not_lt h2) (le_of_not_lt h1)
          subst heq
          simp only [goLeChars, hab, hba, ite_false, if_neg]
          rw [ih bs]
          constructor
          · intro h
            rcases h with h | h
            · exact Or.inl (List.Lex.cons h)
            · exact Or.inr (by rw [h])
          · intro h
            rcases h with h | h
            · rw [List.Lex.cons_iff] at h
              exact Or.inl h
            · exact Or.inr (by injection h)

theorem goLeString_iff (a b : String) : goLeString a b = true ↔ a ≤ b := by
  rw [le_iff_lt_or_eq, String.lt_iff_toList_lt]
  show goLeChars a.data b.data = true ↔ List.Lex (· < ·) a.data b.data ∨ a = b
  rw [goLeChars_iff]
  constructor
  · intro h
    rcases h with h | h
    · exact Or.inl h
    · exact Or.inr (String.ext h)
  · intro h
    rcases h with h | h
    · exact Or.inl h
    · exact Or.inr (by rw [h])

theorem goInsertStr_eq (s : String) (l : List String) :
    goInsertStr s l = List.orderedInsert (· ≤ ·) s l := by
  induction l with
  | nil => rfl
  | cons t ts ih =>
    by_cases h : s ≤ t
    · rw [goInsertStr, List.orderedInsert, if_pos ((goLeString_iff s t).mpr h), if_pos h]
    · rw [goInsertStr, List.orderedInsert,
        if_neg (by rw [goLeString_iff]; exact h), if_neg h, ih]

theorem goSortStrings_eq (l : List String) :
    goSortStrings l = List.insertionSort (· ≤ ·) l := by
  induction l with
  | nil => rfl
  | cons s ss ih => rw [goSortStrings, List.insertionSort, goInsertStr_eq, ih]

theorem goSortStrings_sorted (l : List String) :
    List.Sorted (· ≤ ·) (goSortStrings l) := by
  rw [goSortStrings_eq]
  exact List.sorted_insertionSort _ l

theorem goSortStrings_perm (l : List String) : (goSortStrings l).Perm l := by
  rw [goSortStrings_eq]
  exact List.perm_insertionSort _ l

theorem goSortStrings_length (l : List String) : (goSortStrings l).length = l.length :=
  (goSortStrings_perm l).length_eq

theorem goSortStrings_mem (l : List String) (s : String) :
    s ∈ goSortStrings l ↔ s ∈ l :=
  (goSortStrings_perm l).mem_iff

/-! Lemmas about `mapWithIdx` (indexed loops). -/

theorem mapWithIdx_length (f : Nat → α → β) (i : Nat) (l : List α) :
    (mapWithIdx f i l).length = l.length := by
  induction l generalizing i with
  | nil => rfl
  | cons a as ih => simp [mapWithIdx, ih]

theorem mapWithIdx_getElem? (f : Nat → α → β) (i j : Nat) (l : List α) :
    (mapWithIdx f i l)[j]? = l[j]?.map (f (i + j)) := by
  induction l generalizing i j with
  | nil => simp [mapWithIdx]
  | cons a as ih =>
    cases j with
    | zero => simp [mapWithIdx]
    | succ j =>
      simp only [mapWithIdx, List.getElem?_cons_succ, ih (i + 1) j]
      have h : i + 1 + j = i + (j + 1) := by omega
      rw [h]

/-! Structural lemmas about `Row.Init`. -/

theorem Init_Table (row : Row) (flag : Bool) (clock : Nat) :
    ((row.Init flag clock).1).Table = row.Table := rfl

theorem Init_PK (row : Row) (flag : Bool) (clock : Nat) :
    ((row.Init flag clock).1).PK = row.PK := rfl

theorem Init_pkColumns (row : Row) (flag : Bool) (clock : Nat) :
    ((row.Init flag clock).1).pkColumns = goSortStrings (row.PK.map Prod.fst) := rfl

theorem Init_pkValues (row : Row) (flag : Bool) (clock : Nat) :
    ((row.Init flag clock).1).pkValues =
      (goSortStrings (row.PK.map Prod.fst)).map
        (fun k => classifyPKValue (goMapGet row.PK k)) := rfl

theorem Init_pkColumns_sorted (row : Row) (flag : Bool) (clock : Nat) :
    List.Sorted (· ≤ ·) ((row.Init flag clock).1).pkColumns := by
  rw [Init_pkColumns]
  exact goSortStrings_sorted _

theorem Init_pkColumns_length (row : Row) (flag : Bool) (clock : Nat) :
    ((row.Init flag clock).1).pkColumns.length = row.PK.length := by
  rw [Init_pkColumns, goSortStrings_length, List.length_map]

theorem Init_pkValues_length (row : Row) (flag : Bool) (clock : Nat) :
    ((row.Init flag clock).1).pkValues.length = ((row.Init flag clock).1).pkColumns.length := by
  rw [Init_pkValues, Init_pkColumns, List.length_map]

/-! Shape of the field loop: the four slices only grow, the appended column
names come from the key list being iterated, and the column/value slices
grow in lock step. -/

theorem pfk_insertCols_shape (flag : Bool) (fields : List (String × GoValue)) :
    ∀ (ks : List String) (acc : FieldAcc), ∃ d,
      (processFieldKeys flag fields ks acc).insertColumns = acc.insertColumns ++ d ∧
      d.Sublist ks := by
  intro ks
  induction ks with
  | nil =>
    intro acc
    exact ⟨[], by simp [processFieldKeys], by simp⟩
  | cons k ks ih =>
    intro acc
    rw [processFieldKeys]
    split
    all_goals try split
    all_goals try split
    all_goals try split
    all_goals
      first
      | (obtain ⟨d, hc, hsub⟩ := ih _
         refine ⟨k :: d, ?_, List.Sublist.cons₂ k hsub⟩
         rw [hc]
         try simp
         done)
      | (obtain ⟨d, hc, hsub⟩ := ih _
         refine ⟨d, ?_, List.Sublist.cons k hsub⟩
         rw [hc]
         try simp
         done)

theorem pfk_updateCols_shape (flag : Bool) (fields : List (String × GoValue)) :
    ∀ (ks : List String) (acc : FieldAcc), ∃ d,
      (processFieldKeys flag fields ks acc).updateColumns = acc.updateColumns ++ d ∧
      d.Sublist ks := by
  intro ks
  induction ks with
  | nil =>
    intro acc
    exact ⟨[], by simp [processFieldKeys], by simp⟩
  | cons k ks ih =>
    intro acc
    rw [processFieldKeys]
    split
    all_goals try split
    all_goals try split
    all_goals try split
    all_goals
      first
      | (obtain ⟨d, hc, hsub⟩ := ih _
         refine ⟨k :: d, ?_, List.Sublist.cons₂ k hsub⟩
         rw [hc]
         try simp
         done)
      | (obtain ⟨d, hc, hsub⟩ := ih _
         refine ⟨d, ?_, List.Sublist.cons k hsub⟩
         rw [hc]
         try simp
         done)

theorem pfk_insert_len (flag : Bool) (fields : List (String × GoValue)) :
    ∀ (ks : List String) (acc : FieldAcc),
      acc.insertColumns.length = acc.insertValues.length →
      (processFieldKeys flag fields ks acc).insertColumns.length =
        (processFieldKeys flag fields ks acc).insertValues.length := by
  intro ks
  induction ks with
  | nil =>
    intro acc h
    simpa [processFieldKeys] using h
  | cons k ks ih =>
    intro acc h
    rw [processFieldKeys]
    split
    all_goals try split
    all_goals try split
    all_goals try split
    all_goals exact ih _ (by simp [h])

theorem pfk_update_len (flag : Bool) (fields : List (String × GoValue)) :
    ∀ (ks : List String) (acc : FieldAcc),
      acc.updateColumns.length = acc.updateValues.length →
      (processFieldKeys flag fields ks acc).updateColumns.length =
        (processFieldKeys flag fields ks acc).updateValues.length := by
  intro ks
  induction ks with
  | nil =>
    intro acc h
    simpa [processFieldKeys] using h
  | cons k ks ih =>
    intro acc h
    rw [processFieldKeys]
    split
    all_goals try split
    all_goals try split
    all_goals try split
    all_goals exact ih _ (by simp [h])

theorem pfk_insert_zip_mono (flag : Bool) (fields : List (String × GoValue)) :
    ∀ (ks : List String) (acc : FieldAcc) (p : String × GoValue),
      acc.insertColumns.length = acc.insertValues.length →
      p ∈ acc.insertColumns.zip acc.insertValues →
      p ∈ (processFieldKeys flag fields ks acc).insertColumns.zip
            (processFieldKeys flag fields ks acc).insertValues := by
  intro ks
  induction ks with
  | nil =>
    intro acc p _ hp
    simpa [processFieldKeys] using hp
  | cons k ks ih =>
    intro acc p h hp
    rw [processFieldKeys]
    split
    all_goals try split
    all_goals try split
    all_goals try split
    all_goals
      first
      | (refine ih _ _ (by simp [h]) ?_
         rw [List.zip_append h]
         exact List.mem_append_left _ hp)
      | exact ih _ _ (by simp [h]) hp

theorem pfk_update_zip_mono (flag : Bool) (fields : List (String × GoValue)) :
    ∀ (ks : List String) (acc : FieldAcc) (p : String × GoValue),
      acc.updateColumns.length = acc.updateValues.length →
      p ∈ acc.updateColumns.zip acc.updateValues →
      p ∈ (processFieldKeys flag fields ks acc).updateColumns.zip
            (processFieldKeys flag fields ks acc).updateValues := by
  intro ks
  induction ks with
  | nil =>
    intro acc p _ hp
    simpa [processFieldKeys] using hp
  | cons k ks ih =>
    intro acc p h hp
    rw [processFieldKeys]
    split
    all_goals try split
    all_goals try split
    all_goals try split
    all_goals
      first
      | (refine ih _ _ (by simp [h]) ?_
         rw [List.zip_append h]
         exact List.mem_append_left _ hp)
      | exact ih _ _ (by simp [h]) hp

/-! Marker-string parsing lemmas. -/

theorem goStrAppend_assoc (a b c : String) : (a ++ b) ++ c = a ++ (b ++ c) := by
  apply String.ext
  simp [String.data_append]

theorem goHasPre_append (p x : String) : goHasPre (p ++ x) p = true := by
  rw [goHasPre, String.data_append]
  exact List.isPrefixOf_iff_prefix.mpr (List.prefix_append _ _)

theorem goHasSuf_append (x s : String) : goHasSuf (x ++ s) s = true := by
  rw [goHasSuf, String.data_append]
  exact List.isSuffixOf_iff_suffix.mpr (List.suffix_append _ _)

theorem goTrimSuf_append (x s : String) : goTrimSuf (x ++ s) s = x := by
  rw [goTrimSuf, if_pos (goHasSuf_append x s)]
  apply String.ext
  show (x ++ s).data.take ((x ++ s).data.length - s.data.length) = x.data
  rw [String.data_append, List.length_append]
  have h : x.data.length + s.data.length - s.data.length = x.data.length := by omega
  rw [h]
  exact List.take_left _ _

theorem goTrimPre_append (p x : String) : goTrimPre (p ++ x) p = x := by
  rw [goTrimPre, if_pos (goHasPre_append p x)]
  apply String.ext
  show (p ++ x).data.drop p.data.length = x.data
  rw [String.data_append]
  exact List.drop_left _ _

theorem goHasPre_ref_gen (x : String) :
    goHasPre (pkReferenceMarkerPre ++ x) pkGenerateMarkerPre = false := by
  rw [goHasPre, String.data_append]
  by_contra h
  have h' : pkGenerateMarkerPre.data.isPrefixOf (pkReferenceMarkerPre.data ++ x.data) = true := by
    revert h
    cases pkGenerateMarkerPre.data.isPrefixOf (pkReferenceMarkerPre.data ++ x.data) <;> simp
  have hp := List.isPrefixOf_iff_prefix.mp h'
  rw [List.prefix_iff_eq_take, List.take_append_of_le_length (by decide)] at hp
  exact absurd hp (by decide)

/-- `PK_GENERATE(name)` strings classify to a generator marker whose logical
name is the whitespace-trimmed argument. -/
theorem classify_gen (n : String) :
    classifyPKValue (GoValue.vstr (pkGenerateMarkerPre ++ n ++ pkGenerateMarkerSuf)) =
      GoValue.pkGen (goTrimSpace n) := by
  have h1 : goHasPre (pkGenerateMarkerPre ++ n ++ pkGenerateMarkerSuf) pkGenerateMarkerPre = true := by
    rw [goStrAppend_assoc]
    exact goHasPre_append _ _
  have h2 : goHasSuf (pkGenerateMarkerPre ++ n ++ pkGenerateMarkerSuf) pkGenerateMarkerSuf = true :=
    goHasSuf_append _ _
  simp only [classifyPKValue]
  rw [if_pos (by rw [h1, h2]; rfl), goTrimSuf_append, goTrimPre_append]

/-- `PK_REFERENCE(name)` strings classify to a reference marker whose logical
name is the whitespace-trimmed argument. -/
theorem classify_ref (n : String) :
    classifyPKValue (GoValue.vstr (pkReferenceMarkerPre ++ n ++ pkReferenceMarkerSuf)) =
      GoValue.pkRef (goTrimSpace n) := by
  have h0 : goHasPre (pkReferenceMarkerPre ++ n ++ pkReferenceMarkerSuf) pkGenerateMarkerPre
      = false := by
    rw [goStrAppend_assoc]
    exact goHasPre_ref_gen _
  have h1 : goHasPre (pkReferenceMarkerPre ++ n ++ pkReferenceMarkerSuf) pkReferenceMarkerPre
      = true := by
    rw [goStrAppend_assoc]
    exact goHasPre_append _ _
  have h2 : goHasSuf (pkReferenceMarkerPre ++ n ++ pkReferenceMarkerSuf) pkReferenceMarkerSuf
      = true := goHasSuf_append _ _
  simp only [classifyPKValue]
  rw [if_neg (by rw [h0]; simp), if_pos (by rw [h1, h2]; rfl),
    goTrimSuf_append, goTrimPre_append]

/-! Targeted membership lemmas about the field loop, used for the timestamp
and literal classification claims. -/

theorem pfk_insertNow_mem (flag : Bool) (fields : List (String × GoValue)) (k : String)
    (hv : goMapGet fields k = GoValue.vstr onInsertNow) :
    ∀ (ks : List String) (acc : FieldAcc),
      acc.insertColumns.length = acc.insertValues.length →
      k ∈ ks →
      ∃ t, (k, GoValue.vtime t) ∈
        (processFieldKeys flag fields ks acc).insertColumns.zip
          (processFieldKeys flag fields ks acc).insertValues := by
  intro ks
  induction ks with
  | nil =>
    intro acc _ hk
    cases hk
  | cons k' ks ih =>
    intro acc h hk
    rcases List.mem_cons.mp hk with hk | hk
    · subst hk
      rw [processFieldKeys, hv]
      simp only [beq_self_eq_true, if_true]
      refine ⟨acc.clock, pfk_insert_zip_mono flag fields ks _ _ (by simp [h]) ?_⟩
      rw [List.zip_append h]
      simp
    · rw [processFieldKeys]
      split
      all_goals try split
      all_goals try split
      all_goals try split
      all_goals exact ih _ (by simp [h]) hk

theorem pfk_insertNow_notUpd (flag : Bool) (fields : List (String × GoValue)) (k : String)
    (hv : goMapGet fields k = GoValue.vstr onInsertNow) :
    ∀ (ks : List String) (acc : FieldAcc),
      k ∉ acc.updateColumns →
      k ∉ (processFieldKeys flag fields ks acc).updateColumns := by
  intro ks
  induction ks with
  | nil =>
    intro acc hk
    simpa [processFieldKeys] using hk
  | cons k' ks ih =>
    intro acc hk
    by_cases hkk : k' = k
    · subst hkk
      rw [processFieldKeys, hv]
      simp only [beq_self_eq_true, if_true]
      exact ih _ hk
    · rw [processFieldKeys]
      split
      all_goals try split
      all_goals try split
      all_goals try split
      all_goals refine ih _ ?_
      all_goals try simp only [List.mem_append, List.mem_singleton, not_or]
      all_goals
        first
        | exact hk
        | exact ⟨hk, fun hmm => hkk hmm.symm⟩

theorem pfk_updateNow_mem (flag : Bool) (fields : List (String × GoValue)) (k : String)
    (hv : goMapGet fields k = GoValue.vstr onUpdateNow) :
    ∀ (ks : List String) (acc : FieldAcc),
      acc.insertColumns.length = acc.insertValues.length →
      acc.updateColumns.length = acc.updateValues.length →
      k ∈ ks →
      ∃ t, (k, GoValue.vtime t) ∈
          (processFieldKeys flag fields ks acc).updateColumns.zip
            (processFieldKeys flag fields ks acc).updateValues ∧
        (flag = true → (k, GoValue.vtime (t + 1)) ∈
          (processFieldKeys flag fields ks acc).insertColumns.zip
            (processFieldKeys flag fields ks acc).insertValues) := by
  have e1 : (onUpdateNow == onInsertNow) = false := by decide
  intro ks
  induction ks with
  | nil =>
    intro acc _ _ hk
    cases hk
  | cons k' ks ih =>
    intro acc hi hu hk
    rcases List.mem_cons.mp hk with hk | hk
    · subst hk
      rw [processFieldKeys, hv]
      simp only [e1, Bool.false_eq_true, if_false, beq_self_eq_true, if_true]
      cases flag with
      | true =>
        rw [if_pos rfl]
        refine ⟨acc.clock, ?_, fun _ => ?_⟩
        · refine pfk_update_zip_mono true fields ks _ _ (by simp [hu]) ?_
          rw [List.zip_append hu]
          simp
        · refine pfk_insert_zip_mono true fields ks _ _ (by simp [hi]) ?_
          rw [List.zip_append hi]
          simp
      | false =>
        rw [if_neg (by simp)]
        refine ⟨acc.clock, ?_, fun hff => by cases hff⟩
        refine pfk_update_zip_mono false fields ks _ _ (by simp [hu]) ?_
        rw [List.zip_append hu]
        simp
    · rw [processFieldKeys]
      split
      all_goals try split
      all_goals try split
      all_goals try split
      all_goals exact ih _ (by simp [hi]) (by simp [hu]) hk

theorem pfk_updateNow_notIns (fields : List (String × GoValue)) (k : String)
    (hv : goMapGet fields k = GoValue.vstr onUpdateNow) :
    ∀ (ks : List String) (acc : FieldAcc),
      k ∉ acc.insertColumns →
      k ∉ (processFieldKeys false fields ks acc).insertColumns := by
  have e1 : (onUpdateNow == onInsertNow) = false := by decide
  intro ks
  induction ks with
  | nil =>
    intro acc hk
    simpa [processFieldKeys] using hk
  | cons k' ks ih =>
    intro acc hk
    by_cases hkk : k' = k
    · subst hkk
      rw [processFieldKeys, hv]
      simp only [e1, Bool.false_eq_true, if_false, beq_self_eq_true, if_true]
      exact ih _ hk
    · rw [processFieldKeys]
      split
      all_goals try split
      all_goals try split
      all_goals try split
      all_goals refine ih _ ?_
      all_goals try simp only [List.mem_append, List.mem_singleton, not_or]
      all_goals
        first
        | exact hk
        | exact ⟨hk, fun hmm => hkk hmm.symm⟩

theorem pfk_literal_mem (flag : Bool) (fields : List (String × GoValue)) (k : String)
    (s : String) (hv : goMapGet fields k = GoValue.vstr s)
    (h1 : s ≠ onInsertNow) (h2 : s ≠ onUpdateNow)
    (h3 : (goHasPre s pkReferenceMarkerPre && goHasSuf s pkReferenceMarkerSuf) = false) :
    ∀ (ks : List String) (acc : FieldAcc),
      acc.insertColumns.length = acc.insertValues.length →
      acc.updateColumns.length = acc.updateValues.length →
      k ∈ ks →
      (k, GoValue.vstr s) ∈
          (processFieldKeys flag fields ks acc).insertColumns.zip
            (processFieldKeys flag fields ks acc).insertValues ∧
      (k, GoValue.vstr s) ∈
          (processFieldKeys flag fields ks acc).updateColumns.zip
            (processFieldKeys flag fields ks acc).updateValues := by
  have e1 : (s == onInsertNow) = false := by simp [h1]
  have e2 : (s == onUpdateNow) = false := by simp [h2]
  intro ks
  induction ks with
  | nil =>
    intro acc _ _ hk
    cases hk
  | cons k' ks ih =>
    intro acc hi hu hk
    rcases List.mem_cons.mp hk with hk | hk
    · subst hk
      rw [processFieldKeys, hv]
      simp only [e1, e2, h3, Bool.false_eq_true, if_false]
      constructor
      · refine pfk_insert_zip_mono flag fields ks _ _ (by simp [hi]) ?_
        rw [List.zip_append hi]
        simp
      · refine pfk_update_zip_mono flag fields ks _ _ (by simp [hu]) ?_
        rw [List.zip_append hu]
        simp
    · rw [processFieldKeys]
      split
      all_goals try split
      all_goals try split
      all_goals try split
      all_goals exact (ih _ (by simp [hi]) (by simp [hu]) hk).imp id id

/-! `Row.Init`-level corollaries of the field-loop lemmas. -/

theorem Init_insertColumns_sublist (row : Row) (flag : Bool) (clock : Nat) :
    ((row.Init flag clock).1).insertColumns.Sublist
      (goSortStrings (row.Fields.map Prod.fst)) := by
  obtain ⟨d, hc, hsub⟩ := pfk_insertCols_shape flag row.Fields
    (goSortStrings (row.Fields.map Prod.fst))
    { insertColumns := [], insertValues := [], updateColumns := [], updateValues := [],
      clock := clock }
  show (processFieldKeys flag row.Fields (goSortStrings (row.Fields.map Prod.fst))
    { insertColumns := [], insertValues := [], updateColumns := [], updateValues := [],
      clock := clock }).insertColumns.Sublist _
  rw [hc]
  simpa using hsub

theorem Init_updateColumns_sublist (row : Row) (flag : Bool) (clock : Nat) :
    ((row.Init flag clock).1).updateColumns.Sublist
      (goSortStrings (row.Fields.map Prod.fst)) := by
  obtain ⟨d, hc, hsub⟩ := pfk_updateCols_shape flag row.Fields
    (goSortStrings (row.Fields.map Prod.fst))
    { insertColumns := [], insertValues := [], updateColumns := [], updateValues := [],
      clock := clock }
  show (processFieldKeys flag row.Fields (goSortStrings (row.Fields.map Prod.fst))
    { insertColumns := [], insertValues := [], updateColumns := [], updateValues := [],
      clock := clock }).updateColumns.Sublist _
  rw [hc]
  simpa using hsub

theorem Init_insertColumns_sorted (row : Row) (flag : Bool) (clock : Nat) :
    List.Sorted (· ≤ ·) ((row.Init flag clock).1).insertColumns :=
  List.Pairwise.sublist (Init_insertColumns_sublist row flag clock)
    (goSortStrings_sorted _)

theorem Init_updateColumns_sorted (row : Row) (flag : Bool) (clock : Nat) :
    List.Sorted (· ≤ ·) ((row.Init flag clock).1).updateColumns :=
  List.Pairwise.sublist (Init_updateColumns_sublist row flag clock)
    (goSortStrings_sorted _)

theorem Init_insertColumns_mem_fields (row : Row) (flag : Bool) (clock : Nat)
    (c : String) (hc : c ∈ ((row.Init flag clock).1).insertColumns) :
    c ∈ row.Fields.map Prod.fst :=
  (goSortStrings_mem _ _).mp ((Init_insertColumns_sublist row flag clock).subset hc)

theorem Init_insert_length (row : Row) (flag : Bool) (clock : Nat) :
    ((row.Init flag clock).1).insertColumns.length =
      ((row.Init flag clock).1).insertValues.length := by
  show (processFieldKeys flag row.Fields (goSortStrings (row.Fields.map Prod.fst))
    { insertColumns := [], insertValues := [], updateColumns := [], updateValues := [],
      clock := clock }).insertColumns.length = _
  exact pfk_insert_len flag row.Fields _ _ rfl

theorem Init_update_length (row : Row) (flag : Bool) (clock : Nat) :
    ((row.Init flag clock).1).updateColumns.length =
      ((row.Init flag clock).1).updateValues.length := by
  show (processFieldKeys flag row.Fields (goSortStrings (row.Fields.map Prod.fst))
    { insertColumns := [], insertValues := [], updateColumns := [], updateValues := [],
      clock := clock }).updateColumns.length = _
  exact pfk_update_len flag row.Fields _ _ rfl

theorem Init_insertNow_spec (row : Row) (flag : Bool) (clock : Nat) (k : String)
    (hk : k ∈ row.Fields.map Prod.fst)
    (hv : goMapGet row.Fields k = GoValue.vstr onInsertNow) :
    (∃ t, (k, GoValue.vtime t) ∈
        ((row.Init flag clock).1).insertColumns.zip ((row.Init flag clock).1).insertValues) ∧
      k ∉ ((row.Init flag clock).1).updateColumns := by
  constructor
  · exact pfk_insertNow_mem flag row.Fields k hv _ _ rfl ((goSortStrings_mem _ _).mpr hk)
  · exact pfk_insertNow_notUpd flag row.Fields k hv _ _ (by simp)

theorem Init_updateNow_spec (row : Row) (flag : Bool) (clock : Nat) (k : String)
    (hk : k ∈ row.Fields.map Prod.fst)
    (hv : goMapGet row.Fields k = GoValue.vstr onUpdateNow) :
    ∃ t, (k, GoValue.vtime t) ∈
        ((row.Init flag clock).1).updateColumns.zip ((row.Init flag clock).1).updateValues ∧
      (flag = true → (k, GoValue.vtime (t + 1)) ∈
        ((row.Init flag clock).1).insertColumns.zip ((row.Init flag clock).1).insertValues) :=
  pfk_updateNow_mem flag row.Fields k hv _ _ rfl rfl ((goSortStrings_mem _ _).mpr hk)

theorem Init_updateNow_notIns (row : Row) (clock : Nat) (k : String)
    (hv : goMapGet row.Fields k = GoValue.vstr onUpdateNow) :
    k ∉ ((row.Init false clock).1).insertColumns :=
  pfk_updateNow_notIns row.Fields k hv _ _ (by simp)

theorem Init_literal_spec (row : Row) (flag : Bool) (clock : Nat) (k s : String)
    (hk : k ∈ row.Fields.map Prod.fst)
    (hv : goMapGet row.Fields k = GoValue.vstr s)
    (h1 : s ≠ onInsertNow) (h2 : s ≠ onUpdateNow)
    (h3 : (goHasPre s pkReferenceMarkerPre && goHasSuf s pkReferenceMarkerSuf) = false) :
    (k, GoValue.vstr s) ∈
        ((row.Init flag clock).1).insertColumns.zip ((row.Init flag clock).1).insertValues ∧
      (k, GoValue.vstr s) ∈
        ((row.Init flag clock).1).updateColumns.zip ((row.Init flag clock).1).updateValues :=
  pfk_literal_mem flag row.Fields k s hv h1 h2 h3 _ _ rfl rfl
    ((goSortStrings_mem _ _).mpr hk)

theorem zip_self_map (l : List α) (f : α → β) :
    l.zip (l.map f) = l.map (fun a => (a, f a)) := by
  induction l with
  | nil => rfl
  | cons a as ih => simp [ih]

theorem Init_pk_zip_mem (row : Row) (flag : Bool) (clock : Nat) (k : String)
    (hk : k ∈ row.PK.map Prod.fst) :
    (k, classifyPKValue (goMapGet row.PK k)) ∈
      ((row.Init flag clock).1).pkColumns.zip ((row.Init flag clock).1).pkValues := by
  rw [Init_pkColumns, Init_pkValues, zip_self_map]
  exact List.mem_map.mpr ⟨k, (goSortStrings_mem _ _).mpr hk, rfl⟩

/-! Orchestrator infrastructure: event classification, error shape, and the
composition of the row loop. -/

theorem fix_events (db : DbConn) (table column : String) :
    ∀ ev ∈ (fixPostgresPKSequence db table column).1,
      (∃ s a, ev = SqlEvent.query s a) ∨ (∃ s a, ev = SqlEvent.exec s a) := by
  intro ev hev
  rw [fixPostgresPKSequence] at hev
  rcases hq : db.queryNullStr pgSerialSequenceStmt [GoValue.vstr table, GoValue.vstr column]
    with e | o
  · rw [hq] at hev
    simp only [List.mem_cons, List.not_mem_nil, or_false] at hev
    subst hev
    exact Or.inl ⟨_, _, rfl⟩
  · rcases o with _ | seqName
    · rw [hq] at hev
      simp only [List.mem_cons, List.not_mem_nil, or_false] at hev
      subst hev
      exact Or.inl ⟨_, _, rfl⟩
    · simp only [hq] at hev
      rcases hx : db.exec (pgSetvalStmt column table) [GoValue.vstr seqName] with e | r <;>
        simp only [hx, List.mem_cons, List.not_mem_nil, or_false] at hev <;>
        (rcases hev with rfl | rfl
         · exact Or.inl ⟨_, _, rfl⟩
         · exact Or.inr ⟨_, _, rfl⟩)

theorem execTailFix_events (db : DbConn) (i : Nat) (prior : List SqlEvent)
    (table : String) (doFix : Bool) (reg : Registry) :
    ∀ ev ∈ (execTailFix db i prior table doFix reg).1,
      ev ∈ prior ∨ (∃ s a, ev = SqlEvent.query s a) ∨ (∃ s a, ev = SqlEvent.exec s a) := by
  intro ev hev
  simp only [execTailFix] at hev
  split at hev
  · rcases hfix : (fixPostgresPKSequence db table "id").2 with e | u <;>
      rw [hfix] at hev <;>
      (rcases List.mem_append.mp hev with h | h
       · exact Or.inl h
       · exact Or.inr (fix_events db table "id" ev h))
  · exact Or.inl hev

theorem processRowGen_events (driver : String) (db : DbConn) (reg : Registry) (i : Nat)
    (row : Row) (name : String) :
    ∀ ev ∈ (processRowGen driver db reg i row name).1,
      (∃ s a, ev = SqlEvent.query s a) ∨ (∃ s a, ev = SqlEvent.exec s a) := by
  intro ev hev
  simp only [processRowGen] at hev
  split at hev
  · rcases hq : db.queryInt
        (generatedInsertStmt row driver ++ " RETURNING " ++ row.GetPKColumns.headD "")
        (row.GetInsertValues reg) with e | pk <;>
      simp only [hq] at hev <;>
      simp only [List.mem_cons, List.not_mem_nil, or_false] at hev <;>
      subst hev <;>
      exact Or.inl ⟨_, _, rfl⟩
  · rcases hx : db.exec (generatedInsertStmt row driver) (row.GetInsertValues reg) with e | res
    · simp only [hx] at hev
      simp only [List.mem_cons, List.not_mem_nil, or_false] at hev
      subst hev
      exact Or.inr ⟨_, _, rfl⟩
    · simp only [hx] at hev
      rcases hl : res.lastInsertId with e | pk <;>
        simp only [hl] at hev <;>
        simp only [List.mem_cons, List.not_mem_nil, or_false] at hev <;>
        subst hev <;>
        exact Or.inr ⟨_, _, rfl⟩

theorem processRowStd_events (driver : String) (db : DbConn) (reg : Registry) (i : Nat)
    (row : Row) :
    ∀ ev ∈ (processRowStd driver db reg i row).1,
      (∃ s a, ev = SqlEvent.query s a) ∨ (∃ s a, ev = SqlEvent.exec s a) := by
  intro ev hev
  simp only [processRowStd] at hev
  rcases hq : db.queryInt (countStmt row driver) (row.GetPKValues reg) with e | count
  · simp only [hq] at hev
    simp only [List.mem_cons, List.not_mem_nil, or_false] at hev
    subst hev
    exact Or.inl ⟨_, _, rfl⟩
  · simp only [hq] at hev
    split at hev
    · rcases hx : db.exec (pkInsertStmt row driver) (row.GetPKAndInsertValues reg) with e | r
      · simp only [hx] at hev
        simp only [List.mem_cons, List.not_mem_nil, or_false] at hev
        rcases hev with rfl | rfl
        · exact Or.inl ⟨_, _, rfl⟩
        · exact Or.inr ⟨_, _, rfl⟩
      · simp only [hx] at hev
        rcases execTailFix_events db i _ row.Table _ reg ev hev with h | h
        · simp only [List.mem_cons, List.not_mem_nil, or_false] at h
          rcases h with rfl | rfl
          · exact Or.inl ⟨_, _, rfl⟩
          · exact Or.inr ⟨_, _, rfl⟩
        · exact h
    · split at hev
      · rcases hx : db.exec (updateStmt row driver)
            (row.GetUpdateValues reg ++ row.GetPKValues reg) with e | r
        · simp only [hx] at hev
          simp only [List.mem_cons, List.not_mem_nil, or_false] at hev
          rcases hev with rfl | rfl
          · exact Or.inl ⟨_, _, rfl⟩
          · exact Or.inr ⟨_, _, rfl⟩
        · simp only [hx] at hev
          rcases execTailFix_events db i _ row.Table _ reg ev hev with h | h
          · simp only [List.mem_cons, List.not_mem_nil, or_false] at h
            rcases h with rfl | rfl
            · exact Or.inl ⟨_, _, rfl⟩
            · exact Or.inr ⟨_, _, rfl⟩
          · exact h
      · simp only [List.mem_cons, List.not_mem_nil, or_false] at hev
        subst hev
        exact Or.inl ⟨_, _, rfl⟩

theorem processRow_events (driver : String) (db : DbConn) (reg : Registry) (i : Nat)
    (row : Row) :
    ∀ ev ∈ (processRow driver db reg i row).1,
      (∃ s a, ev = SqlEvent.query s a) ∨ (∃ s a, ev = SqlEvent.exec s a) := by
  intro ev hev
  rw [processRow] at hev
  split at hev
  · exact processRowGen_events driver db reg i row _ ev hev
  · exact processRowStd_events driver db reg i row ev hev

theorem processRows_events (flag : Bool) (driver : String) (db : DbConn) :
    ∀ (rows : List Row) (reg : Registry) (clock i : Nat),
      ∀ ev ∈ (processRows flag driver db reg clock i rows).1,
        (∃ s a, ev = SqlEvent.query s a) ∨ (∃ s a, ev = SqlEvent.exec s a) := by
  intro rows
  induction rows with
  | nil =>
    intro reg clock i ev hev
    simp [processRows] at hev
  | cons row rest ih =>
    intro reg clock i ev hev
    rw [processRows] at hev
    split at hev
    · exact processRow_events driver db reg i _ ev hev
    · rcases List.mem_append.mp hev with h | h
      · exact processRow_events driver db reg i _ ev h
      · exact ih _ _ _ ev h

theorem loadFilesGo_events (flag : Bool) (driver : String) (db : DbConn) :
    ∀ (files : List (List Row)) (reg : Registry) (clock : Nat),
      ∀ ev ∈ (loadFilesGo flag driver db reg clock files).1,
        (∃ s a, ev = SqlEvent.query s a) ∨ (∃ s a, ev = SqlEvent.exec s a) := by
  intro files
  induction files with
  | nil =>
    intro reg clock ev hev
    simp [loadFilesGo] at hev
  | cons rows rest ih =>
    intro reg clock ev hev
    rw [loadFilesGo] at hev
    split at hev
    · exact processRows_events flag driver db rows reg clock 0 ev hev
    · rcases List.mem_append.mp hev with h | h
      · exact processRows_events flag driver db rows reg clock 0 ev h
      · exact ih _ _ ev h

theorem execTailFix_error (db : DbConn) (i : Nat) (prior : List SqlEvent)
    (table : String) (doFix : Bool) (reg : Registry) (e : LoadError)
    (he : (execTailFix db i prior table doFix reg).2 = Except.error e) :
    ∃ c, e = LoadError.processingError (i + 1) c := by
  simp only [execTailFix] at he
  split at he
  · rcases hfix : (fixPostgresPKSequence db table "id").2 with e' | u <;>
      simp only [hfix] at he
    · exact ⟨e', by injection he with h; exact h.symm⟩
    · cases he
  · cases he

theorem processRowGen_error (driver : String) (db : DbConn) (reg : Registry) (i : Nat)
    (row : Row) (name : String) (e : LoadError)
    (he : (processRowGen driver db reg i row name).2 = Except.error e) :
    ∃ c, e = LoadError.processingError (i + 1) c := by
  simp only [processRowGen] at he
  split at he
  · rcases hq : db.queryInt
        (generatedInsertStmt row driver ++ " RETURNING " ++ row.GetPKColumns.headD "")
        (row.GetInsertValues reg) with e' | pk <;>
      simp only [hq] at he
    · exact ⟨e', by injection he with h; exact h.symm⟩
    · cases he
  · rcases hx : db.exec (generatedInsertStmt row driver) (row.GetInsertValues reg) with e' | res
    · simp only [hx] at he
      exact ⟨e', by injection he with h; exact h.symm⟩
    · simp only [hx] at he
      rcases hl : res.lastInsertId with e' | pk <;>
        simp only [hl] at he
      · exact ⟨e', by injection he with h; exact h.symm⟩
      · cases he

theorem processRowStd_error (driver : String) (db : DbConn) (reg : Registry) (i : Nat)
    (row : Row) (e : LoadError)
    (he : (processRowStd driver db reg i row).2 = Except.error e) :
    ∃ c, e = LoadError.processingError (i + 1) c := by
  simp only [processRowStd] at he
  rcases hq : db.queryInt (countStmt row driver) (row.GetPKValues reg) with e' | count <;>
    simp only [hq] at he
  · exact ⟨e', by injection he with h; exact h.symm⟩
  · split at he
    · rcases hx : db.exec (pkInsertStmt row driver) (row.GetPKAndInsertValues reg)
        with e' | r <;> simp only [hx] at he
      · exact ⟨e', by injection he with h; exact h.symm⟩
      · exact execTailFix_error db i _ row.Table _ reg e he
    · split at he
      · rcases hx : db.exec (updateStmt row driver)
            (row.GetUpdateValues reg ++ row.GetPKValues reg) with e' | r <;>
          simp only [hx] at he
        · exact ⟨e', by injection he with h; exact h.symm⟩
        · exact execTailFix_error db i _ row.Table _ reg e he
      · cases he

theorem processRow_error (driver : String) (db : DbConn) (reg : Registry) (i : Nat)
    (row : Row) (e : LoadError)
    (he : (processRow driver db reg i row).2 = Except.error e) :
    ∃ c, e = LoadError.processingError (i + 1) c := by
  rw [processRow] at he
  split at he
  · exact processRowGen_error driver db reg i row _ e he
  · exact processRowStd_error driver db reg i row e he

theorem processRows_prefix_error (flag : Bool) (driver : String) (db : DbConn) :
    ∀ (xs : List Row) (r : Row) (ys : List Row) (reg : Registry) (clock i : Nat)
      (evs1 : List SqlEvent) (reg1 : Registry) (clock1 : Nat)
      (evs2 : List SqlEvent) (e : LoadError),
      processRows flag driver db reg clock i xs = (evs1, Except.ok (reg1, clock1)) →
      processRow driver db reg1 (i + xs.length) ((r.Init flag clock1).1) =
        (evs2, Except.error e) →
      processRows flag driver db reg clock i (xs ++ r :: ys) =
        (evs1 ++ evs2, Except.error e) := by
  intro xs
  induction xs with
  | nil =>
    intro r ys reg clock i evs1 reg1 clock1 evs2 e h1 h2
    rw [processRows] at h1
    simp only [Prod.mk.injEq, Except.ok.injEq] at h1
    obtain ⟨h1a, h1b, h1c⟩ := h1
    subst h1a
    subst h1b
    subst h1c
    simp only [List.length_nil, Nat.add_zero] at h2
    simp only [List.nil_append, processRows, h2]
  | cons x xs' ih =>
    intro r ys reg clock i evs1 reg1 clock1 evs2 e h1 h2
    simp only [processRows] at h1 ⊢
    rcases hstep : (processRow driver db reg i ((x.Init flag clock).1)).2 with e' | reg2
    · simp only [hstep] at h1
      simp only [Prod.mk.injEq] at h1
      cases h1.2
    · simp only [hstep] at h1 ⊢
      rcases hrec : processRows flag driver db reg2 ((x.Init flag clock).2) (i + 1) xs'
        with ⟨evs1', res'⟩
      rw [hrec] at h1
      simp only [Prod.mk.injEq] at h1
      obtain ⟨h1a, h1b⟩ := h1
      have hidx : i + (x :: xs').length = (i + 1) + xs'.length := by
        simp [List.length_cons]
        omega
      rw [hidx] at h2
      rw [h1b] at hrec
      have hres := ih r ys reg2 ((x.Init flag clock).2) (i + 1) evs1' reg1 clock1 evs2 e hrec h2
      simp only [List.append_eq]
      rw [hres]
      subst h1a
      simp [List.append_assoc]

/-! Dispatch and branch characterizations of the per-row orchestration. -/

theorem registryGet_none (reg : Registry) (n : String) (h : reg.lookup n = none) :
    registryGet reg n = GoValue.vnull := by
  simp [registryGet, h]

theorem lookup_eq_of_mem_nodup (l : List (String × GoValue)) (k : String) (v : GoValue)
    (hnd : (l.map Prod.fst).Nodup) (hm : (k, v) ∈ l) : l.lookup k = some v := by
  induction l with
  | nil => cases hm
  | cons p ps ih =>
    rcases List.mem_cons.mp hm with rfl | hm
    · simp [List.lookup]
    · have hk : k ≠ p.1 := by
        intro hkp
        have : p.1 ∈ ps.map Prod.fst := List.mem_map.mpr ⟨(k, v), hm, by rw [hkp]⟩
        simp only [List.map_cons, List.nodup_cons] at hnd
        exact hnd.1 this
      have hnd' : (ps.map Prod.fst).Nodup := by
        simp only [List.map_cons, List.nodup_cons] at hnd
        exact hnd.2
      simp only [List.lookup, beq_eq_false_iff_ne.mpr hk]
      exact ih hnd' hm

theorem GetWhere_eq (row : Row) (driver : String) (i : Nat)
    (h : row.pkColumns.length = row.PK.length) :
    row.GetWhere driver i = String.intercalate " AND "
      (mapWithIdx (fun j c =>
        if driver == postgresDriver then c ++ " = $" ++ toString (j + 1) else c ++ " = ?")
        i row.pkColumns) := by
  simp only [Row.GetWhere]
  rw [← h, ← mapWithIdx_length (fun j c =>
      if driver == postgresDriver then c ++ " = $" ++ toString (j + 1) else c ++ " = ?")
    i row.pkColumns]
  simp

theorem processRow_gen_eq (driver : String) (db : DbConn) (reg : Registry) (i : Nat)
    (row : Row) (name : String) (h : row.GetPKValues reg = [GoValue.pkGen name]) :
    processRow driver db reg i row = processRowGen driver db reg i row name := by
  rw [processRow, h]

theorem processRow_notGen (driver : String) (db : DbConn) (reg : Registry) (i : Nat)
    (row : Row) (h : ∀ name, row.GetPKValues reg ≠ [GoValue.pkGen name]) :
    processRow driver db reg i row = processRowStd driver db reg i row := by
  rw [processRow]
  rcases hpk : row.GetPKValues reg with _ | ⟨v, rest⟩
  · rfl
  · rcases v with _ | n | s | t | g | rr <;> rcases rest with _ | ⟨v2, rest2⟩ <;>
      first
      | exact absurd hpk (h _)
      | rfl

theorem processRowStd_head (driver : String) (db : DbConn) (reg : Registry) (i : Nat)
    (row : Row) :
    (processRowStd driver db reg i row).1.head? =
      some (SqlEvent.query (countStmt row driver) (row.GetPKValues reg)) := by
  simp only [processRowStd]
  rcases hq : db.queryInt (countStmt row driver) (row.GetPKValues reg) with e | count <;>
    simp only [hq]
  · rfl
  · split
    · rcases hx : db.exec (pkInsertStmt row driver) (row.GetPKAndInsertValues reg)
        with e | r <;> simp only [hx]
      · rfl
      · simp only [execTailFix]
        split
        · rcases hfix : (fixPostgresPKSequence db row.Table "id").2 with e | u <;>
            simp only [hfix] <;> rfl
        · rfl
    · split
      · rcases hx : db.exec (updateStmt row driver)
            (row.GetUpdateValues reg ++ row.GetPKValues reg) with e | r <;>
          simp only [hx]
        · rfl
        · simp only [execTailFix]
          split
          · rcases hfix : (fixPostgresPKSequence db row.Table "id").2 with e | u <;>
              simp only [hfix] <;> rfl
          · rfl
      · rfl

theorem processRowStd_insert_branch (driver : String) (db : DbConn) (reg : Registry)
    (i : Nat) (row : Row)
    (hq : db.queryInt (countStmt row driver) (row.GetPKValues reg) = Except.ok 0) :
    ∃ rest, (processRowStd driver db reg i row).1 =
      SqlEvent.query (countStmt row driver) (row.GetPKValues reg) ::
      SqlEvent.exec (pkInsertStmt row driver) (row.GetPKAndInsertValues reg) :: rest := by
  simp only [processRowStd, hq, beq_self_eq_true, if_true]
  rcases hx : db.exec (pkInsertStmt row driver) (row.GetPKAndInsertValues reg) with e | r <;>
    simp only [hx]
  · exact ⟨[], rfl⟩
  · simp only [execTailFix]
    split
    · rcases hfix : (fixPostgresPKSequence db row.Table "id").2 with e | u <;>
        simp only [hfix]
      · exact ⟨(fixPostgresPKSequence db row.Table "id").1, rfl⟩
      · exact ⟨(fixPostgresPKSequence db row.Table "id").1, rfl⟩
    · exact ⟨[], rfl⟩

theorem processRowStd_update_branch (driver : String) (db : DbConn) (reg : Registry)
    (i : Nat) (row : Row) (c : Int)
    (hq : db.queryInt (countStmt row driver) (row.GetPKValues reg) = Except.ok c)
    (hc : (c == 0) = false) (hupd : 0 < row.GetUpdateColumnsLength) :
    ∃ rest, (processRowStd driver db reg i row).1 =
      SqlEvent.query (countStmt row driver) (row.GetPKValues reg) ::
      SqlEvent.exec (updateStmt row driver)
        (row.GetUpdateValues reg ++ row.GetPKValues reg) :: rest := by
  simp only [processRowStd, hq, hc, Bool.false_eq_true, if_false]
  rw [if_pos hupd]
  rcases hx : db.exec (updateStmt row driver)
      (row.GetUpdateValues reg ++ row.GetPKValues reg) with e | r <;>
    simp only [hx]
  · exact ⟨[], rfl⟩
  · simp only [execTailFix]
    split
    · rcases hfix : (fixPostgresPKSequence db row.Table "id").2 with e | u <;>
        simp only [hfix]
      · exact ⟨(fixPostgresPKSequence db row.Table "id").1, rfl⟩
      · exact ⟨(fixPostgresPKSequence db row.Table "id").1, rfl⟩
    · exact ⟨[], rfl⟩

theorem processRowStd_noop (driver : String) (db : DbConn) (reg : Registry)
    (i : Nat) (row : Row) (c : Int)
    (hq : db.queryInt (countStmt row driver) (row.GetPKValues reg) = Except.ok c)
    (hc : (c == 0) = false) (hupd : row.GetUpdateColumnsLength = 0) :
    processRowStd driver db reg i row =
      ([SqlEvent.query (countStmt row driver) (row.GetPKValues reg)], Except.ok reg) := by
  simp only [processRowStd, hq, hc, Bool.false_eq_true, if_false]
  rw [if_neg (by omega)]

/-! Claim theorems. -/

/-- C1 (counterexample): a `PK_REFERENCE(user)` whose name was never written
to the Key Resolution Registry does NOT fail with a lookup error — the row
processes successfully, and the missing reference is silently bound as the
null value (`nil`) in both the existence-check SELECT and the INSERT.  This
refutes the claim that such a row's processing fails with a lookup error and
never silently binds a null value. -/
theorem c1_counterexample :
    processRow "mysql" dbOk0 [] 0 ((wRefRow.Init false 0).1) =
      ([SqlEvent.query "SELECT COUNT(*) FROM \"users\" WHERE id = ?" [GoValue.vnull],
        SqlEvent.exec "INSERT INTO \"users\"(\"id\") VALUES(?)" [GoValue.vnull]],
       Except.ok []) := by
  rfl

/-- C1 (amended): a `PK_REFERENCE(name)` whose name has not been written to
the Key Resolution Registry by an earlier row silently resolves to the null
value (the zero value of a missing Go map key) and is bound as the argument
in that position; no lookup error exists in the code and row processing
continues. -/
theorem c1_missing_reference_binds_null (reg : Registry) (n : String) (row : Row)
    (j : Nat) (hn : reg.lookup n = none)
    (hj : row.pkValues[j]? = some (GoValue.pkRef n)) :
    registryGet reg n = GoValue.vnull ∧
    (row.GetPKValues reg)[j]? = some GoValue.vnull := by
  have hg : registryGet reg n = GoValue.vnull := registryGet_none reg n hn
  refine ⟨hg, ?_⟩
  rw [Row.GetPKValues, List.getElem?_map, hj]
  simp [resolveValue, hg]

/-- C1 witness: the amended claim evaluated on the concrete reference row
with an empty registry. -/
theorem c1_missing_reference_binds_null_witness :
    ([] : Registry).lookup "user" = none ∧
    ((wRefRow.Init false 0).1).pkValues[0]? = some (GoValue.pkRef "user") ∧
    (registryGet [] "user" = GoValue.vnull ∧
      (((wRefRow.Init false 0).1).GetPKValues [])[0]? = some GoValue.vnull) :=
  ⟨rfl, rfl, c1_missing_reference_binds_null [] "user" ((wRefRow.Init false 0).1) 0 rfl rfl⟩

/-- C8: for every compiled row, an `ON_INSERT_NOW()` field appears only in
the insert columns/values (it is excluded from the update set); an
`ON_UPDATE_NOW()` field appears in the update columns/values and, exactly
when the set-updated-at-on-insert flag is enabled, also in the insert
columns/values — the update-side capture `vtime t` and the insert-side
capture `vtime (t+1)` are two independently evaluated `time.Now()` calls
(distinct capture indices, so not required to be identical). -/
theorem c8_timestamp_markers (r : Row) (flag : Bool) (clock : Nat) (k : String) :
    (k ∈ r.Fields.map Prod.fst → goMapGet r.Fields k = GoValue.vstr onInsertNow →
      (∃ t, (k, GoValue.vtime t) ∈
        ((r.Init flag clock).1).insertColumns.zip ((r.Init flag clock).1).insertValues) ∧
      k ∉ ((r.Init flag clock).1).updateColumns) ∧
    (k ∈ r.Fields.map Prod.fst → goMapGet r.Fields k = GoValue.vstr onUpdateNow →
      ∃ t, (k, GoValue.vtime t) ∈
          ((r.Init flag clock).1).updateColumns.zip ((r.Init flag clock).1).updateValues ∧
        (flag = true → (k, GoValue.vtime (t + 1)) ∈
          ((r.Init flag clock).1).insertColumns.zip ((r.Init flag clock).1).insertValues)) ∧
    (k ∈ r.Fields.map Prod.fst → goMapGet r.Fields k = GoValue.vstr onUpdateNow →
      (k ∈ ((r.Init flag clock).1).insertColumns ↔ flag = true)) := by
  refine ⟨?_, ?_, ?_⟩
  · intro hk hv
    exact Init_insertNow_spec r flag clock k hk hv
  · intro hk hv
    exact Init_updateNow_spec r flag clock k hk hv
  · intro hk hv
    constructor
    · intro hins
      cases hf : flag with
      | true => rfl
      | false =>
        subst hf
        exact absurd hins (Init_updateNow_notIns r clock k hv)
    · intro hf
      obtain ⟨t, _, hup⟩ := Init_updateNow_spec r flag clock k hk hv
      exact (List.of_mem_zip (hup hf)).1

/-- C8 witness: the timestamp row with the flag enabled. -/
theorem c8_timestamp_markers_witness :
    ("created_at" ∈ wTsRow.Fields.map Prod.fst ∧
      goMapGet wTsRow.Fields "created_at" = GoValue.vstr onInsertNow) ∧
    ((∃ t, ("created_at", GoValue.vtime t) ∈
        ((wTsRow.Init true 0).1).insertColumns.zip ((wTsRow.Init true 0).1).insertValues) ∧
      "created_at" ∉ ((wTsRow.Init true 0).1).updateColumns) ∧
    (∃ t, ("updated_at", GoValue.vtime t) ∈
        ((wTsRow.Init true 0).1).updateColumns.zip ((wTsRow.Init true 0).1).updateValues ∧
      (true = true → ("updated_at", GoValue.vtime (t + 1)) ∈
        ((wTsRow.Init true 0).1).insertColumns.zip ((wTsRow.Init true 0).1).insertValues)) ∧
    ("updated_at" ∈ ((wTsRow.Init true 0).1).insertColumns ↔ true = true) := by
  refine ⟨⟨by decide, rfl⟩, ?_, ?_, ?_⟩
  · exact (c8_timestamp_markers wTsRow true 0 "created_at").1 (by decide) rfl
  · exact (c8_timestamp_markers wTsRow true 0 "updated_at").2.1 (by decide) rfl
  · exact (c8_timestamp_markers wTsRow true 0 "updated_at").2.2 (by decide) rfl

/-- C9: any string in a primary-key or field spec that does not exactly match
a recognized marker pattern compiles to a literal pass-through scalar — row
compilation (`Row.Init`) is a total function, so no error is raised — and
for matching `PK_GENERATE(...)`/`PK_REFERENCE(...)` markers the enclosed
argument is whitespace-trimmed. -/
theorem c9_malformed_markers_are_literals (r : Row) (flag : Bool) (clock : Nat)
    (k s n : String) :
    (k ∈ r.PK.map Prod.fst → goMapGet r.PK k = GoValue.vstr s →
      (goHasPre s pkGenerateMarkerPre && goHasSuf s pkGenerateMarkerSuf) = false →
      (goHasPre s pkReferenceMarkerPre && goHasSuf s pkReferenceMarkerSuf) = false →
      (k, GoValue.vstr s) ∈
        ((r.Init flag clock).1).pkColumns.zip ((r.Init flag clock).1).pkValues) ∧
    (k ∈ r.Fields.map Prod.fst → goMapGet r.Fields k = GoValue.vstr s →
      s ≠ onInsertNow → s ≠ onUpdateNow →
      (goHasPre s pkReferenceMarkerPre && goHasSuf s pkReferenceMarkerSuf) = false →
      (k, GoValue.vstr s) ∈
          ((r.Init flag clock).1).insertColumns.zip ((r.Init flag clock).1).insertValues ∧
        (k, GoValue.vstr s) ∈
          ((r.Init flag clock).1).updateColumns.zip ((r.Init flag clock).1).updateValues) ∧
    classifyPKValue (GoValue.vstr (pkGenerateMarkerPre ++ n ++ pkGenerateMarkerSuf)) =
      GoValue.pkGen (goTrimSpace n) ∧
    classifyPKValue (GoValue.vstr (pkReferenceMarkerPre ++ n ++ pkReferenceMarkerSuf)) =
      GoValue.pkRef (goTrimSpace n) := by
  refine ⟨?_, ?_, classify_gen n, classify_ref n⟩
  · intro hk hs h1 h2
    have hmem := Init_pk_zip_mem r flag clock k hk
    rw [hs] at hmem
    have hcl : classifyPKValue (GoValue.vstr s) = GoValue.vstr s := by
      simp only [classifyPKValue, h1, h2, Bool.false_eq_true, if_false]
    rw [hcl] at hmem
    exact hmem
  · intro hk hs h1 h2 h3
    exact Init_literal_spec r flag clock k s hk hs h1 h2 h3

/-- C9 witness: a plain literal in both specs, and trimming of a padded
marker argument. -/
theorem c9_malformed_markers_are_literals_witness :
    ("c", GoValue.vstr "zz") ∈
        ((wC9Row.Init false 0).1).pkColumns.zip ((wC9Row.Init false 0).1).pkValues ∧
    (("c", GoValue.vstr "zz") ∈
        ((wC9Row.Init false 0).1).insertColumns.zip ((wC9Row.Init false 0).1).insertValues ∧
      ("c", GoValue.vstr "zz") ∈
        ((wC9Row.Init false 0).1).updateColumns.zip ((wC9Row.Init false 0).1).updateValues) ∧
    classifyPKValue (GoValue.vstr (pkGenerateMarkerPre ++ " u " ++ pkGenerateMarkerSuf)) =
      GoValue.pkGen (goTrimSpace " u ") ∧
    goTrimSpace " u " = "u" := by
  have h := c9_malformed_markers_are_literals wC9Row false 0 "c" "zz" " u "
  exact ⟨h.1 (by decide) rfl (by decide) (by decide),
    h.2.1 (by decide) rfl (by decide) (by decide) (by decide), h.2.2.1, by decide⟩

/-- C10: a primary-key spec with two or more entries of which at least one is
a `PK_GENERATE` marker raises no validation error: the generated-PK shortcut
is skipped (more than one primary-key value), the existence check runs, and
the raw `*PrimaryKeyGenerator` marker object itself — not a resolved scalar —
flows through `GetPKValues` and `GetPKAndInsertValues` into the bound
arguments of the existence-check SELECT and the subsequent INSERT or
UPDATE. -/
theorem c10_raw_generator_marker (r row : Row) (flag : Bool) (clock : Nat)
    (driver : String) (db : DbConn) (reg : Registry) (i : Nat) (g k : String)
    (hrow : row = (r.Init flag clock).1)
    (hnodup : (r.PK.map Prod.fst).Nodup)
    (hmem : (k, GoValue.vstr (pkGenerateMarkerPre ++ g ++ pkGenerateMarkerSuf)) ∈ r.PK)
    (hlen : 2 ≤ r.PK.length) :
    GoValue.pkGen (goTrimSpace g) ∈ row.GetPKValues reg ∧
    GoValue.pkGen (goTrimSpace g) ∈ row.GetPKAndInsertValues reg ∧
    processRow driver db reg i row = processRowStd driver db reg i row ∧
    (processRow driver db reg i row).1.head? =
      some (SqlEvent.query (countStmt row driver) (row.GetPKValues reg)) ∧
    (db.queryInt (countStmt row driver) (row.GetPKValues reg) = Except.ok 0 →
      ∃ rest, (processRow driver db reg i row).1 =
        SqlEvent.query (countStmt row driver) (row.GetPKValues reg) ::
        SqlEvent.exec (pkInsertStmt row driver) (row.GetPKAndInsertValues reg) :: rest) ∧
    (∀ c : Int, db.queryInt (countStmt row driver) (row.GetPKValues reg) = Except.ok c →
      (c == 0) = false → 0 < row.GetUpdateColumnsLength →
      ∃ rest, (processRow driver db reg i row).1 =
        SqlEvent.query (countStmt row driver) (row.GetPKValues reg) ::
        SqlEvent.exec (updateStmt row driver)
          (row.GetUpdateValues reg ++ row.GetPKValues reg) :: rest) := by
  have hget : goMapGet r.PK k =
      GoValue.vstr (pkGenerateMarkerPre ++ g ++ pkGenerateMarkerSuf) := by
    rw [goMapGet, lookup_eq_of_mem_nodup r.PK k _ hnodup hmem]
    rfl
  have hkk : k ∈ r.PK.map Prod.fst := List.mem_map.mpr ⟨_, hmem, rfl⟩
  have hzip := Init_pk_zip_mem r flag clock k hkk
  rw [hget, classify_gen] at hzip
  have hpkv : GoValue.pkGen (goTrimSpace g) ∈ row.pkValues := by
    rw [hrow]
    exact (List.of_mem_zip hzip).2
  have h1 : GoValue.pkGen (goTrimSpace g) ∈ row.GetPKValues reg := by
    rw [Row.GetPKValues]
    exact List.mem_map.mpr ⟨GoValue.pkGen (goTrimSpace g), hpkv, rfl⟩
  have h2 : GoValue.pkGen (goTrimSpace g) ∈ row.GetPKAndInsertValues reg := by
    rw [Row.GetPKAndInsertValues]
    exact List.mem_map.mpr ⟨GoValue.pkGen (goTrimSpace g),
      List.mem_append_left _ hpkv, rfl⟩
  have hlenpk : (row.GetPKValues reg).length = r.PK.length := by
    rw [Row.GetPKValues, List.length_map, hrow, Init_pkValues_length,
      Init_pkColumns_length]
  have hnogen : ∀ name, row.GetPKValues reg ≠ [GoValue.pkGen name] := by
    intro name hcontra
    rw [hcontra] at hlenpk
    simp only [List.length_singleton] at hlenpk
    omega
  have hdisp := processRow_notGen driver db reg i row hnogen
  refine ⟨h1, h2, hdisp, ?_, ?_, ?_⟩
  · rw [hdisp]
    exact processRowStd_head driver db reg i row
  · intro hq
    rw [hdisp]
    exact processRowStd_insert_branch driver db reg i row hq
  · intro c hq hc hupd
    rw [hdisp]
    exact processRowStd_update_branch driver db reg i row c hq hc hupd

/-- C10 witness: the composite-PK row with a generator marker, against the
count-0 oracle. -/
theorem c10_raw_generator_marker_witness :
    ((wMultiRow.Init false 0).1 = (wMultiRow.Init false 0).1 ∧
      (wMultiRow.PK.map Prod.fst).Nodup ∧
      ("id", GoValue.vstr (pkGenerateMarkerPre ++ "g" ++ pkGenerateMarkerSuf)) ∈ wMultiRow.PK ∧
      2 ≤ wMultiRow.PK.length) ∧
    GoValue.pkGen (goTrimSpace "g") ∈ ((wMultiRow.Init false 0).1).GetPKValues [] ∧
    (dbOk0.queryInt (countStmt ((wMultiRow.Init false 0).1) "mysql")
        (((wMultiRow.Init false 0).1).GetPKValues []) = Except.ok 0 →
      ∃ rest, (processRow "mysql" dbOk0 [] 0 ((wMultiRow.Init false 0).1)).1 =
        SqlEvent.query (countStmt ((wMultiRow.Init false 0).1) "mysql")
          (((wMultiRow.Init false 0).1).GetPKValues []) ::
        SqlEvent.exec (pkInsertStmt ((wMultiRow.Init false 0).1) "mysql")
          (((wMultiRow.Init false 0).1).GetPKAndInsertValues []) :: rest) := by
  have h := c10_raw_generator_marker wMultiRow ((wMultiRow.Init false 0).1) false 0
    "mysql" dbOk0 [] 0 "g" "id" rfl (by decide) (by decide) (by decide)
  exact ⟨⟨rfl, by decide, by decide, by decide⟩, h.1, h.2.2.2.2.1⟩

theorem goHasPre_select_of_insert (x : String) :
    goHasPre ("INSERT INTO \"" ++ x) "SELECT COUNT" = false := by
  rw [goHasPre, String.data_append]
  rfl

theorem generatedInsertStmt_not_count (row : Row) (driver : String) (a b : String) :
    goHasPre (generatedInsertStmt row driver ++ a ++ b) "SELECT COUNT" = false := by
  rw [generatedInsertStmt]
  simp only [goStrAppend_assoc]
  exact goHasPre_select_of_insert _

theorem generatedInsertStmt_not_count' (row : Row) (driver : String) :
    goHasPre (generatedInsertStmt row driver) "SELECT COUNT" = false := by
  rw [generatedInsertStmt]
  simp only [goStrAppend_assoc]
  exact goHasPre_select_of_insert _

/-- C2: the Generated-Insert path is taken iff the primary-key spec resolves
to exactly one value and that value is a `PKGenerate` marker.  On it: the
INSERT's column list is the field insert columns only (for an initialized
row every insert column comes from the field spec, so the primary-key column
is omitted), no existence check is issued (no statement in the trace is a
`SELECT COUNT`), the assigned key is obtained via `RETURNING` for the
postgres driver and via last-insert-id for other drivers, and it is recorded
in the Key Resolution Registry under the generator's logical name.  With two
or more primary-key values the shortcut is skipped and the first statement
issued is the existence check. -/
theorem c2_generated_insert_path (r row : Row) (flag : Bool) (clock : Nat)
    (db : DbConn) (reg : Registry) (i : Nat) (driver name : String) (pk : Int)
    (res : SqlResult)
    (hrow : row = (r.Init flag clock).1) :
    (row.GetPKValues reg = [GoValue.pkGen name] →
      (∀ s a, (SqlEvent.query s a ∈ (processRow driver db reg i row).1 ∨
          SqlEvent.exec s a ∈ (processRow driver db reg i row).1) →
        goHasPre s "SELECT COUNT" = false) ∧
      (∀ c ∈ row.insertColumns, c ∈ r.Fields.map Prod.fst) ∧
      (db.queryInt (generatedInsertStmt row postgresDriver ++ " RETURNING " ++
            row.GetPKColumns.headD "") (row.GetInsertValues reg) = Except.ok pk →
        processRow postgresDriver db reg i row =
          ([SqlEvent.query (generatedInsertStmt row postgresDriver ++ " RETURNING " ++
              row.GetPKColumns.headD "") (row.GetInsertValues reg)],
            Except.ok (registrySet reg name (GoValue.vint pk)))) ∧
      ((driver == postgresDriver) = false →
        db.exec (generatedInsertStmt row driver) (row.GetInsertValues reg) =
          Except.ok res →
        res.lastInsertId = Except.ok pk →
        processRow driver db reg i row =
          ([SqlEvent.exec (generatedInsertStmt row driver) (row.GetInsertValues reg)],
            Except.ok (registrySet reg name (GoValue.vint pk))))) ∧
    (2 ≤ (row.GetPKValues reg).length →
      (processRow driver db reg i row).1.head? =
        some (SqlEvent.query (countStmt row driver) (row.GetPKValues reg))) := by
  constructor
  · intro hpk
    refine ⟨?_, ?_, ?_, ?_⟩
    · intro s a hmem
      rw [processRow_gen_eq driver db reg i row name hpk] at hmem
      simp only [processRowGen] at hmem
      rcases hmem with hmem | hmem
      · split at hmem
        · rcases hq : db.queryInt
              (generatedInsertStmt row driver ++ " RETURNING " ++ row.GetPKColumns.headD "")
              (row.GetInsertValues reg) with e | v <;>
            simp only [hq, List.mem_cons, List.not_mem_nil, or_false,
              SqlEvent.query.injEq] at hmem <;>
          · obtain ⟨rfl, -⟩ := hmem
            exact generatedInsertStmt_not_count row driver _ _
        · rcases hx : db.exec (generatedInsertStmt row driver) (row.GetInsertValues reg)
            with e | rr
          · simp only [hx, List.mem_cons, List.not_mem_nil, or_false] at hmem
            cases hmem
          · simp only [hx] at hmem
            rcases hl : rr.lastInsertId with e | v <;>
              simp only [hl, List.mem_cons, List.not_mem_nil, or_false] at hmem <;>
              cases hmem
      · split at hmem
        · rcases hq : db.queryInt
              (generatedInsertStmt row driver ++ " RETURNING " ++ row.GetPKColumns.headD "")
              (row.GetInsertValues reg) with e | v <;>
            simp only [hq, List.mem_cons, List.not_mem_nil, or_false] at hmem <;>
            cases hmem
        · rcases hx : db.exec (generatedInsertStmt row driver) (row.GetInsertValues reg)
            with e | rr
          · simp only [hx, List.mem_cons, List.not_mem_nil, or_false,
              SqlEvent.exec.injEq] at hmem
            obtain ⟨rfl, -⟩ := hmem
            exact generatedInsertStmt_not_count' row driver
          · simp only [hx] at hmem
            rcases hl : rr.lastInsertId with e | v <;>
              simp only [hl, List.mem_cons, List.not_mem_nil, or_false,
                SqlEvent.exec.injEq] at hmem <;>
            · obtain ⟨rfl, -⟩ := hmem
              exact generatedInsertStmt_not_count' row driver
    · intro c hc
      rw [hrow] at hc
      exact Init_insertColumns_mem_fields r flag clock c hc
    · intro hq
      rw [processRow_gen_eq postgresDriver db reg i row name hpk]
      simp only [processRowGen, beq_self_eq_true, if_true, hq]
    · intro hd hx hl
      rw [processRow_gen_eq driver db reg i row name hpk]
      simp only [processRowGen, hd, Bool.false_eq_true, if_false, hx, hl]
  · intro hlen
    have hnogen : ∀ name', row.GetPKValues reg ≠ [GoValue.pkGen name'] := by
      intro name' hcontra
      rw [hcontra] at hlen
      simp at hlen
    rw [processRow_notGen driver db reg i row hnogen]
    exact processRowStd_head driver db reg i row

/-- C2 witness: the single-generator row, postgres driver, against the
dispatching oracle (count queries answer 0, the RETURNING insert answers
42). -/
theorem c2_generated_insert_path_witness :
    ((wGenRow.Init false 0).1).GetPKValues [] = [GoValue.pkGen "uid"] ∧
    processRow postgresDriver dbSel [] 0 ((wGenRow.Init false 0).1) =
      ([SqlEvent.query "INSERT INTO \"users\"(\"name\") VALUES($1) RETURNING id"
          [GoValue.vstr "Alice"]],
        Except.ok [("uid", GoValue.vint 42)]) := by
  have h := c2_generated_insert_path wGenRow ((wGenRow.Init false 0).1) false 0 dbSel []
    0 "mysql" "uid" 42 { lastInsertId := Except.ok 42 } rfl
  exact ⟨rfl, (h.1 rfl).2.2.1 rfl⟩

/-- C3: for every row not taking the Generated-Insert path, the orchestrator
first runs the existence check; when the count is 0 it performs an INSERT
whose column list is the lexicographically sorted primary-key columns
followed by the lexicographically sorted field insert columns with the bound
values in that same combined order; when the count is positive and at least
one update column exists it performs an UPDATE instead; when the count is
positive and there are zero update columns it performs neither statement. -/
theorem c3_insert_update_noop (r row : Row) (flag : Bool) (clock : Nat)
    (db : DbConn) (reg : Registry) (i : Nat) (driver : String)
    (hrow : row = (r.Init flag clock).1)
    (hnogen : ∀ name, row.GetPKValues reg ≠ [GoValue.pkGen name]) :
    (processRow driver db reg i row).1.head? =
      some (SqlEvent.query (countStmt row driver) (row.GetPKValues reg)) ∧
    List.Sorted (· ≤ ·) row.pkColumns ∧
    List.Sorted (· ≤ ·) row.insertColumns ∧
    row.GetPKAndInsertColumns =
      row.pkColumns.map quoteIdent ++ row.insertColumns.map quoteIdent ∧
    row.GetPKAndInsertValues reg = row.GetPKValues reg ++ row.GetInsertValues reg ∧
    (row.GetPKValues reg).length = row.pkColumns.length ∧
    (row.GetInsertValues reg).length = row.insertColumns.length ∧
    (db.queryInt (countStmt row driver) (row.GetPKValues reg) = Except.ok 0 →
      ∃ rest, (processRow driver db reg i row).1 =
        SqlEvent.query (countStmt row driver) (row.GetPKValues reg) ::
        SqlEvent.exec (pkInsertStmt row driver) (row.GetPKAndInsertValues reg) :: rest) ∧
    (∀ c : Int, db.queryInt (countStmt row driver) (row.GetPKValues reg) = Except.ok c →
      (c == 0) = false → 0 < row.GetUpdateColumnsLength →
      ∃ rest, (processRow driver db reg i row).1 =
        SqlEvent.query (countStmt row driver) (row.GetPKValues reg) ::
        SqlEvent.exec (updateStmt row driver)
          (row.GetUpdateValues reg ++ row.GetPKValues reg) :: rest) ∧
    (∀ c : Int, db.queryInt (countStmt row driver) (row.GetPKValues reg) = Except.ok c →
      (c == 0) = false → row.GetUpdateColumnsLength = 0 →
      processRow driver db reg i row =
        ([SqlEvent.query (countStmt row driver) (row.GetPKValues reg)],
          Except.ok reg)) := by
  have hdisp := processRow_notGen driver db reg i row hnogen
  refine ⟨?_, ?_, ?_, rfl, ?_, ?_, ?_, ?_, ?_, ?_⟩
  · rw [hdisp]
    exact processRowStd_head driver db reg i row
  · rw [hrow]
    exact Init_pkColumns_sorted r flag clock
  · rw [hrow]
    exact Init_insertColumns_sorted r flag clock
  · rw [Row.GetPKAndInsertValues, Row.GetPKValues, Row.GetInsertValues, List.map_append]
  · rw [Row.GetPKValues, List.length_map, hrow]
    exact Init_pkValues_length r flag clock
  · rw [Row.GetInsertValues, List.length_map, hrow]
    exact (Init_insert_length r flag clock).symm
  · intro hq
    rw [hdisp]
    exact processRowStd_insert_branch driver db reg i row hq
  · intro c hq hc hupd
    rw [hdisp]
    exact processRowStd_update_branch driver db reg i row c hq hc hupd
  · intro c hq hc hupd
    rw [hdisp]
    exact processRowStd_noop driver db reg i row c hq hc hupd

/-- C3 witness: the literal row against the count-0 oracle takes the INSERT
path with the sorted combined column list. -/
theorem c3_insert_update_noop_witness :
    (∀ name, ((wLitRow.Init false 0).1).GetPKValues [] ≠ [GoValue.pkGen name]) ∧
    ((wLitRow.Init false 0).1).GetPKAndInsertColumns =
      ["\"id\"", "\"age\"", "\"name\""] ∧
    (dbOk0.queryInt (countStmt ((wLitRow.Init false 0).1) "mysql")
        (((wLitRow.Init false 0).1).GetPKValues []) = Except.ok 0 →
      ∃ rest, (processRow "mysql" dbOk0 [] 0 ((wLitRow.Init false 0).1)).1 =
        SqlEvent.query (countStmt ((wLitRow.Init false 0).1) "mysql")
          (((wLitRow.Init false 0).1).GetPKValues []) ::
        SqlEvent.exec (pkInsertStmt ((wLitRow.Init false 0).1) "mysql")
          (((wLitRow.Init false 0).1).GetPKAndInsertValues []) :: rest) := by
  have hnogen : ∀ name, ((wLitRow.Init false 0).1).GetPKValues [] ≠ [GoValue.pkGen name] := by
    intro name h
    have h5 : ((wLitRow.Init false 0).1).GetPKValues [] = [GoValue.vint 5] := rfl
    rw [h5] at h
    simp at h
  have h := c3_insert_update_noop wLitRow ((wLitRow.Init false 0).1) false 0 dbOk0 []
    0 "mysql" rfl hnogen
  exact ⟨hnogen, rfl, h.2.2.2.2.2.2.2.1⟩

/-- C4: for every UPDATE emitted, the bound argument list is the update
values followed by the primary-key values; the SET pieces are `"col" = $j+1`
and the WHERE pieces continue the positional count (`pk_col = $(m+k+1)` after
`m` SET placeholders) on postgres, while every other driver uses untyped `?`
placeholders — in both cases matching the argument order positionally. -/
theorem c4_update_placeholders (r row : Row) (flag : Bool) (clock : Nat)
    (db : DbConn) (reg : Registry) (i : Nat) (d : String)
    (hrow : row = (r.Init flag clock).1)
    (hnogen : ∀ name, row.GetPKValues reg ≠ [GoValue.pkGen name]) :
    (∀ c : Int, db.queryInt (countStmt row postgresDriver) (row.GetPKValues reg) =
        Except.ok c → (c == 0) = false → 0 < row.GetUpdateColumnsLength →
      ∃ rest, (processRow postgresDriver db reg i row).1 =
        SqlEvent.query (countStmt row postgresDriver) (row.GetPKValues reg) ::
        SqlEvent.exec (updateStmt row postgresDriver)
          (row.GetUpdateValues reg ++ row.GetPKValues reg) :: rest) ∧
    (∃ S W, updateStmt row postgresDriver =
        "UPDATE \"" ++ row.Table ++ "\" SET " ++ String.intercalate ", " S ++
          " WHERE " ++ String.intercalate " AND " W ∧
      S.length = row.GetUpdateColumnsLength ∧
      W.length = row.pkColumns.length ∧
      (∀ j : Nat, S[j]? = (row.GetUpdateColumns)[j]?.map
        (fun c => c ++ " = $" ++ toString (j + 1))) ∧
      (∀ k : Nat, W[k]? = row.pkColumns[k]?.map
        (fun c => c ++ " = $" ++ toString (row.GetUpdateColumnsLength + k + 1)))) ∧
    ((d == postgresDriver) = false →
      ∃ S W, updateStmt row d =
        "UPDATE \"" ++ row.Table ++ "\" SET " ++ String.intercalate ", " S ++
          " WHERE " ++ String.intercalate " AND " W ∧
      (∀ j : Nat, S[j]? = (row.GetUpdateColumns)[j]?.map (fun c => c ++ " = ?")) ∧
      (∀ k : Nat, W[k]? = row.pkColumns[k]?.map (fun c => c ++ " = ?"))) ∧
    (row.GetUpdateValues reg).length = row.GetUpdateColumnsLength ∧
    (row.GetPKValues reg).length = row.pkColumns.length := by
  have hpklen : row.pkColumns.length = row.PK.length := by
    rw [hrow]
    rw [Init_PK]
    exact Init_pkColumns_length r flag clock
  refine ⟨?_, ?_, ?_, ?_, ?_⟩
  · intro c hq hc hupd
    rw [processRow_notGen postgresDriver db reg i row hnogen]
    exact processRowStd_update_branch postgresDriver db reg i row c hq hc hupd
  · refine ⟨row.GetUpdatePlaceholders postgresDriver,
      mapWithIdx (fun j c => if (postgresDriver == postgresDriver) = true then
        c ++ " = $" ++ toString (j + 1) else c ++ " = ?")
        row.GetUpdateColumnsLength row.pkColumns, ?_, ?_, ?_, ?_, ?_⟩
    · rw [updateStmt, GetWhere_eq row postgresDriver row.GetUpdateColumnsLength hpklen]
    · rw [Row.GetUpdatePlaceholders, mapWithIdx_length, Row.GetUpdateColumnsLength]
    · rw [mapWithIdx_length]
    · intro j
      rw [Row.GetUpdatePlaceholders, mapWithIdx_getElem?]
      simp
    · intro k
      rw [mapWithIdx_getElem?]
      simp
  · intro hd
    refine ⟨row.GetUpdatePlaceholders d,
      mapWithIdx (fun j c => if (d == postgresDriver) = true then
        c ++ " = $" ++ toString (j + 1) else c ++ " = ?")
        row.GetUpdateColumnsLength row.pkColumns, ?_, ?_, ?_⟩
    · rw [updateStmt, GetWhere_eq row d row.GetUpdateColumnsLength hpklen]
    · intro j
      rw [Row.GetUpdatePlaceholders, mapWithIdx_getElem?]
      simp [hd]
    · intro k
      rw [mapWithIdx_getElem?]
      simp [hd]
  · rw [Row.GetUpdateValues, List.length_map, Row.GetUpdateColumnsLength,
      Row.GetUpdateColumns, List.length_map, hrow]
    exact (Init_update_length r flag clock).symm
  · rw [Row.GetPKValues, List.length_map, hrow]
    exact Init_pkValues_length r flag clock

/-- C4 witness: the literal row against the count-1 oracle takes the UPDATE
path; its concrete statement shows the WHERE placeholder continuing the SET
count. -/
theorem c4_update_placeholders_witness :
    (∀ name, ((wLitRow.Init false 0).1).GetPKValues [] ≠ [GoValue.pkGen name]) ∧
    updateStmt ((wLitRow.Init false 0).1) postgresDriver =
      "UPDATE \"users\" SET \"age\" = $1, \"name\" = $2 WHERE id = $3" ∧
    (∃ S W, updateStmt ((wLitRow.Init false 0).1) postgresDriver =
        "UPDATE \"" ++ ((wLitRow.Init false 0).1).Table ++ "\" SET " ++
          String.intercalate ", " S ++ " WHERE " ++ String.intercalate " AND " W ∧
      S.length = ((wLitRow.Init false 0).1).GetUpdateColumnsLength ∧
      W.length = ((wLitRow.Init false 0).1).pkColumns.length ∧
      (∀ j : Nat, S[j]? = (((wLitRow.Init false 0).1).GetUpdateColumns)[j]?.map
        (fun c => c ++ " = $" ++ toString (j + 1))) ∧
      (∀ k : Nat, W[k]? = ((wLitRow.Init false 0).1).pkColumns[k]?.map
        (fun c => c ++ " = $" ++ toString
          (((wLitRow.Init false 0).1).GetUpdateColumnsLength + k + 1)))) := by
  have hnogen : ∀ name, ((wLitRow.Init false 0).1).GetPKValues [] ≠ [GoValue.pkGen name] := by
    intro name h
    have h5 : ((wLitRow.Init false 0).1).GetPKValues [] = [GoValue.vint 5] := rfl
    rw [h5] at h
    simp at h
  have h := c4_update_placeholders wLitRow ((wLitRow.Init false 0).1) false 0 dbOk1 []
    0 "mysql" rfl hnogen
  exact ⟨hnogen, rfl, h.2.1⟩

/-- C5: on the postgres driver, after an existence-check-path INSERT whose
primary-key values were supplied explicitly (no generator marker among them)
and whose first emitted column is the `"id"` column, the orchestrator
queries `pg_get_serial_sequence` for the sequence backing the column
(`pgSerialSequenceStmt` with arguments table and `"id"`); if a sequence
exists it is advanced to `MAX("id")` over the table via the `setval`
statement (`pgSetvalStmt "id" table`), and if none exists (NULL scan) the
fix-up is a silent no-op — processing succeeds with no further statement. -/
theorem c5_sequence_resync (r row : Row) (flag : Bool) (clock : Nat)
    (db : DbConn) (reg : Registry) (i : Nat) (res : SqlResult)
    (hrow : row = (r.Init flag clock).1)
    (hexpl : ∀ g, GoValue.pkGen g ∉ row.GetPKValues reg)
    (hid : row.GetPKAndInsertColumns.headD "" = "\"id\"")
    (hq : db.queryInt (countStmt row postgresDriver) (row.GetPKValues reg) = Except.ok 0)
    (hx : db.exec (pkInsertStmt row postgresDriver) (row.GetPKAndInsertValues reg) =
      Except.ok res) :
    (db.queryNullStr pgSerialSequenceStmt [GoValue.vstr row.Table, GoValue.vstr "id"] =
        Except.ok none →
      processRow postgresDriver db reg i row =
        ([SqlEvent.query (countStmt row postgresDriver) (row.GetPKValues reg),
          SqlEvent.exec (pkInsertStmt row postgresDriver) (row.GetPKAndInsertValues reg),
          SqlEvent.query pgSerialSequenceStmt [GoValue.vstr row.Table, GoValue.vstr "id"]],
         Except.ok reg)) ∧
    (∀ (seqName : String) (res2 : SqlResult),
      db.queryNullStr pgSerialSequenceStmt [GoValue.vstr row.Table, GoValue.vstr "id"] =
        Except.ok (some seqName) →
      db.exec (pgSetvalStmt "id" row.Table) [GoValue.vstr seqName] = Except.ok res2 →
      processRow postgresDriver db reg i row =
        ([SqlEvent.query (countStmt row postgresDriver) (row.GetPKValues reg),
          SqlEvent.exec (pkInsertStmt row postgresDriver) (row.GetPKAndInsertValues reg),
          SqlEvent.query pgSerialSequenceStmt [GoValue.vstr row.Table, GoValue.vstr "id"],
          SqlEvent.exec (pgSetvalStmt "id" row.Table) [GoValue.vstr seqName]],
         Except.ok reg)) := by
  have hnogen : ∀ name, row.GetPKValues reg ≠ [GoValue.pkGen name] := by
    intro name hcontra
    exact hexpl name (by rw [hcontra]; exact List.mem_cons_self _ _)
  have hdisp := processRow_notGen postgresDriver db reg i row hnogen
  have hcond : (row.GetPKAndInsertColumns.headD "" == "\"id\"") = true := by
    rw [hid]
    rfl
  constructor
  · intro hseq
    rw [hdisp]
    simp only [processRowStd, hq, beq_self_eq_true, if_true, hx, hcond, Bool.true_and,
      execTailFix, fixPostgresPKSequence, hseq, List.cons_append, List.nil_append]
  · intro seqName res2 hseq hset
    rw [hdisp]
    simp only [processRowStd, hq, beq_self_eq_true, if_true, hx, hcond, Bool.true_and,
      execTailFix, fixPostgresPKSequence, hseq, hset, List.cons_append, List.nil_append]

/-- C5 witness: the explicit-`id` row; against `dbOk0` (no backing sequence)
the fix-up silently no-ops, and against `dbSeq` (sequence present) the
`setval`-to-MAX statement is executed. -/
theorem c5_sequence_resync_witness :
    (dbOk0.queryNullStr pgSerialSequenceStmt
        [GoValue.vstr "users", GoValue.vstr "id"] = Except.ok none ∧
      processRow postgresDriver dbOk0 [] 0 ((wIdRow.Init false 0).1) =
        ([SqlEvent.query (countStmt ((wIdRow.Init false 0).1) postgresDriver)
            (((wIdRow.Init false 0).1).GetPKValues []),
          SqlEvent.exec (pkInsertStmt ((wIdRow.Init false 0).1) postgresDriver)
            (((wIdRow.Init false 0).1).GetPKAndInsertValues []),
          SqlEvent.query pgSerialSequenceStmt [GoValue.vstr "users", GoValue.vstr "id"]],
         Except.ok [])) ∧
    processRow postgresDriver dbSeq [] 0 ((wIdRow.Init false 0).1) =
      ([SqlEvent.query (countStmt ((wIdRow.Init false 0).1) postgresDriver)
          (((wIdRow.Init false 0).1).GetPKValues []),
        SqlEvent.exec (pkInsertStmt ((wIdRow.Init false 0).1) postgresDriver)
          (((wIdRow.Init false 0).1).GetPKAndInsertValues []),
        SqlEvent.query pgSerialSequenceStmt [GoValue.vstr "users", GoValue.vstr "id"],
        SqlEvent.exec (pgSetvalStmt "id" "users") [GoValue.vstr "users_id_seq"]],
       Except.ok []) := by
  have hexpl : ∀ g, GoValue.pkGen g ∉ ((wIdRow.Init false 0).1).GetPKValues [] := by
    intro g hmem
    have h5 : ((wIdRow.Init false 0).1).GetPKValues [] = [GoValue.vint 5] := rfl
    rw [h5] at hmem
    simp at hmem
  have h1 := c5_sequence_resync wIdRow ((wIdRow.Init false 0).1) false 0 dbOk0 [] 0
    { lastInsertId := Except.ok 7 } rfl hexpl rfl rfl rfl
  have h2 := c5_sequence_resync wIdRow ((wIdRow.Init false 0).1) false 0 dbSeq [] 0
    { lastInsertId := Except.ok 7 } rfl hexpl rfl rfl rfl
  exact ⟨⟨rfl, h1.1 rfl⟩, h2.2 "users_id_seq" { lastInsertId := Except.ok 7 } rfl rfl⟩

/-- C6: every `LoadFiles` call opens exactly one database transaction for the
whole batch (exactly one `txBegin` in the trace) and creates one Key
Resolution Registry, threading it from file to file: the registry (and
timestamp counter) produced by one file's rows is the input of the next
file's rows, never recreated per row or per file.  Concretely, in a two-file
batch the second file's INSERT binds the key value (42) returned for the
first file's `PK_GENERATE(user)` via `PK_REFERENCE(user)`. -/
theorem c6_loadfiles_one_transaction (flag : Bool) (driver : String) (db : DbConn)
    (files : List (List Row)) (rows : List Row) (rest : List (List Row))
    (reg reg' : Registry) (clock clock' : Nat) (evs : List SqlEvent) :
    (LoadFiles flag driver db files).1.count SqlEvent.txBegin = 1 ∧
    (processRows flag driver db reg clock 0 rows = (evs, Except.ok (reg', clock')) →
      loadFilesGo flag driver db reg clock (rows :: rest) =
        (evs ++ (loadFilesGo flag driver db reg' clock' rest).1,
          (loadFilesGo flag driver db reg' clock' rest).2)) ∧
    LoadFiles false postgresDriver dbSel [[wFileGenRow], [wFileRefRow]] =
      ([SqlEvent.txBegin,
        SqlEvent.query "INSERT INTO \"users\"(\"name\") VALUES($1) RETURNING id"
          [GoValue.vstr "Alice"],
        SqlEvent.query "SELECT COUNT(*) FROM \"posts\" WHERE pid = $1" [GoValue.vint 1],
        SqlEvent.exec "INSERT INTO \"posts\"(\"pid\", \"author_id\") VALUES($1, $2)"
          [GoValue.vint 1, GoValue.vint 42],
        SqlEvent.txCommit], Except.ok ()) := by
  refine ⟨?_, ?_, ?_⟩
  · rcases hgo : loadFilesGo flag driver db [] 0 files with ⟨evs0, res0⟩
    have hev : ∀ ev ∈ evs0,
        (∃ s a, ev = SqlEvent.query s a) ∨ (∃ s a, ev = SqlEvent.exec s a) := by
      intro ev hmem
      apply loadFilesGo_events flag driver db files [] 0 ev
      rw [hgo]
      exact hmem
    have hnotx : SqlEvent.txBegin ∉ evs0 := by
      intro hmem
      rcases hev _ hmem with ⟨s, a, h⟩ | ⟨s, a, h⟩ <;> cases h
    rw [LoadFiles, hgo]
    rcases res0 with e | u <;>
      simp [List.count_cons, List.count_append, List.count_eq_zero.mpr hnotx]
  · intro h
    simp only [loadFilesGo, h]
  · rfl

/-- C6 witness: the shared-registry clause evaluated on the two-file batch. -/
theorem c6_loadfiles_one_transaction_witness :
    (LoadFiles false postgresDriver dbSel [[wFileGenRow], [wFileRefRow]]).1.count
        SqlEvent.txBegin = 1 ∧
    (processRows false postgresDriver dbSel [] 0 0 [wFileGenRow] =
      ([SqlEvent.query "INSERT INTO \"users\"(\"name\") VALUES($1) RETURNING id"
          [GoValue.vstr "Alice"]],
        Except.ok ([("user", GoValue.vint 42)], 0))) ∧
    loadFilesGo false postgresDriver dbSel [] 0 [[wFileGenRow], [wFileRefRow]] =
      ([SqlEvent.query "INSERT INTO \"users\"(\"name\") VALUES($1) RETURNING id"
          [GoValue.vstr "Alice"]] ++
        (loadFilesGo false postgresDriver dbSel [("user", GoValue.vint 42)] 0
          [[wFileRefRow]]).1,
        (loadFilesGo false postgresDriver dbSel [("user", GoValue.vint 42)] 0
          [[wFileRefRow]]).2) := by
  have h := c6_loadfiles_one_transaction false postgresDriver dbSel
    [[wFileGenRow], [wFileRefRow]] [wFileGenRow] [[wFileRefRow]]
    [] [("user", GoValue.vint 42)] 0 0
    [SqlEvent.query "INSERT INTO \"users\"(\"name\") VALUES($1) RETURNING id"
      [GoValue.vstr "Alice"]]
  exact ⟨h.1, rfl, h.2.1 rfl⟩

/-- C7: any failure on row N (1-based) makes the load entry points return
that single failure: the trace contains the statements of rows 1..N only
(rows after the failing row — and, for `LoadFiles`, whole later files — are
never processed: the result does not depend on them), the error carries the
1-based row index, and the transaction is rolled back and never committed,
leaving the database exactly as before the call including the effects of
rows 1..N-1 that had already executed inside the same transaction. -/
theorem c7_abort_and_rollback (flag : Bool) (driver : String) (db : DbConn)
    (xs : List Row) (r : Row) (ys : List Row) (fs : List (List Row))
    (evs1 evs2 : List SqlEvent) (reg1 : Registry) (clock1 : Nat) (e : LoadError)
    (h1 : processRows flag driver db [] 0 0 xs = (evs1, Except.ok (reg1, clock1)))
    (h2 : processRow driver db reg1 xs.length ((r.Init flag clock1).1) =
      (evs2, Except.error e)) :
    Load flag driver db (xs ++ r :: ys) =
      (SqlEvent.txBegin :: (evs1 ++ evs2) ++ [SqlEvent.txRollback], Except.error e) ∧
    (∃ c, e = LoadError.processingError (xs.length + 1) c) ∧
    SqlEvent.txCommit ∉ (Load flag driver db (xs ++ r :: ys)).1 ∧
    LoadFiles flag driver db ((xs ++ r :: ys) :: fs) =
      (SqlEvent.txBegin :: (evs1 ++ evs2) ++ [SqlEvent.txRollback], Except.error e) := by
  have h2' : processRow driver db reg1 (0 + xs.length) ((r.Init flag clock1).1) =
      (evs2, Except.error e) := by
    simpa using h2
  have hcomp := processRows_prefix_error flag driver db xs r ys [] 0 0 evs1 reg1 clock1
    evs2 e h1 h2'
  have hload : Load flag driver db (xs ++ r :: ys) =
      (SqlEvent.txBegin :: (evs1 ++ evs2) ++ [SqlEvent.txRollback], Except.error e) := by
    simp only [Load, hcomp]
  refine ⟨hload, ?_, ?_, ?_⟩
  · exact processRow_error driver db reg1 xs.length _ e (by rw [h2])
  · rw [hload]
    intro hmem
    rcases List.mem_cons.mp hmem with h | h
    · cases h
    · rcases List.mem_append.mp h with h | h
      · have hq := processRows_events flag driver db (xs ++ r :: ys) [] 0 0
          SqlEvent.txCommit (by rw [hcomp]; exact h)
        rcases hq with ⟨s, a, hh⟩ | ⟨s, a, hh⟩ <;> cases hh
      · exact absurd (List.mem_singleton.mp h) (by decide)
  · simp only [LoadFiles, loadFilesGo, hcomp]

/-- C7 witness: a two-row batch whose first row fails (the oracle errors
every statement): `Load` returns the single row-1 failure, only row 1's
statement is in the trace, and the transaction rolls back. -/
theorem c7_abort_and_rollback_witness :
    processRows false "mysql" dbFail [] 0 0 [] = ([], Except.ok ([], 0)) ∧
    Load false "mysql" dbFail [wLitRow, wGenRow] =
      ([SqlEvent.txBegin,
        SqlEvent.query "SELECT COUNT(*) FROM \"users\" WHERE id = ?" [GoValue.vint 5],
        SqlEvent.txRollback],
       Except.error (LoadError.processingError 1 "boom")) ∧
    (∃ c, LoadError.processingError 1 "boom" = LoadError.processingError (0 + 1) c) := by
  have h := c7_abort_and_rollback false "mysql" dbFail [] wLitRow [wGenRow] [[wGenRow]]
    [] [SqlEvent.query "SELECT COUNT(*) FROM \"users\" WHERE id = ?" [GoValue.vint 5]]
    [] 0 (LoadError.processingError 1 "boom") rfl rfl
  exact ⟨rfl, h.1, h.2.1⟩
